import Mathlib

/-!
A formal model of the vhost-user protocol engine of `vdev.c` (yc-libvhost-server).

The C code is embedded shallowly:
* machine integers become `Nat` with explicit reductions modulo `2^32` / `2^64`
  at the points where the C code truncates or may wrap;
* pointers become `Option Nat` host addresses (`none` = `NULL`);
* file descriptors and C `int` results become `Int` (handlers return `0` or a
  positive errno, I/O helpers return negative `-errno` values);
* calls into the outside world (`mmap`, `close`, event-loop registration,
  message sends, the virtqueue primitive) are recorded in an effect trace
  (`Eff`), and their results are supplied by an environment (`Env` or
  explicit result arguments), since the C functions only branch on them;
* each C function that mutates state in place becomes a function returning the
  result code, the updated state and the trace of external calls it performed.

Constants and message-layout structures that live in headers absent from the
source tree (the vhost-user protocol header and platform header) are modelled
from the specification and marked as such.
-/

/-- Modelled from the spec: 64-bit wrap-around modulus for `uint64_t` arithmetic. -/
def U64 : Nat := 18446744073709551616

/-- Modelled from the spec: 32-bit wrap-around modulus for `uint32_t` truncation. -/
def U32 : Nat := 4294967296

/-- Modelled from the spec: page size used for the alignment checks (`platform.h`
is not in the source tree; regions are sized in 4096-byte pages). -/
def PAGE_SIZE : Nat := 4096

/-- Modelled from the spec: `PAGE_SHIFT`, with `PAGE_SIZE = 2 ^ PAGE_SHIFT`. -/
def PAGE_SHIFT : Nat := 12

/-- Modelled from the spec: `MAX_MEM_REGIONS` (8), the fixed size of the guest
memory map table (`VHOST_USER_MEM_REGIONS_MAX` in the missing protocol header). -/
def VHOST_USER_MEM_REGIONS_MAX : Nat := 8

/-- errno EINVAL. -/
def EINVAL : Int := 22

/-- errno EBUSY. -/
def EBUSY : Int := 16

/-- errno ENOTSUP. -/
def ENOTSUP : Int := 95

/-- The vhost-user request opcodes dispatched by `vhost_handle_request`.
The numeric values of the opcodes never matter to the handlers, so the enum is
kept symbolic; `NONE` stands for `VHOST_USER_NONE` and any undefined opcode. -/
inductive VhostUserReq where
  | GET_FEATURES
  | SET_FEATURES
  | SET_OWNER
  | RESET_OWNER
  | GET_PROTOCOL_FEATURES
  | SET_PROTOCOL_FEATURES
  | GET_CONFIG
  | SET_CONFIG
  | SET_MEM_TABLE
  | GET_QUEUE_NUM
  | SET_VRING_CALL
  | SET_VRING_KICK
  | SET_VRING_ERR
  | SET_VRING_NUM
  | SET_VRING_BASE
  | GET_VRING_BASE
  | SET_VRING_ADDR
  | SET_VRING_ENABLE
  | SET_LOG_BASE
  | SET_LOG_FD
  | SEND_RARP
  | NET_SET_MTU
  | SET_SLAVE_REQ_FD
  | IOTLB_MSG
  | SET_VRING_ENDIAN
  | CREATE_CRYPTO_SESSION
  | CLOSE_CRYPTO_SESSION
  | POSTCOPY_ADVISE
  | POSTCOPY_LISTEN
  | POSTCOPY_END
  | GET_INFLIGHT_FD
  | SET_INFLIGHT_FD
  | NONE
deriving DecidableEq

/-- The wire replies the slave can emit: a `u64` reply built by
`vhost_send_reply`, the `GET_CONFIG` echo, and the `GET_INFLIGHT_FD` reply that
carries the region fd as an ancillary descriptor. -/
inductive Reply where
  | u64 (req : VhostUserReq) (val : Int)
  | config (size : Nat)
  | inflight (mmap_size mmap_offset : Nat) (fd : Int)
deriving DecidableEq

/-- Trace of calls the protocol engine makes into the outside world.
`sendMsg` records an explicit reply emitted from inside a handler; `sendAck`
records the `vhost_send_reply` performed by `vhost_ack_request_if_needed`
(the same wire format, distinguished here by call site). -/
inductive Eff where
  | closeFd (fd : Int)
  | munmapHva (addr : Nat)
  | munmapInflight
  | sendMsg (r : Reply)
  | sendAck (val : Int)
  | addVhostEvent (fd : Int)
  | delVhostEvent (fd : Int)
  | attachEvent (fd : Int)
  | detachEvent (fd : Int)
  | virtqAttach (id : Nat)
  | virtqRelease (id : Nat)
  | setNotifyFd (fd : Int)
deriving DecidableEq

/-- True for the `sendMsg` (explicit-reply) effects. -/
def isReplyEff : Eff → Bool
  | Eff.sendMsg _ => true
  | _ => false

/-- True for the `sendAck` effects. -/
def isAckEff : Eff → Bool
  | Eff.sendAck _ => true
  | _ => false

/-- `struct vhd_guest_memory_region`: `{gpa, uva, hva, pages, fd}` with
`hva = none` for an unmapped (NULL) slot. -/
structure GuestMemoryRegion where
  gpa : Nat
  uva : Nat
  hva : Option Nat
  pages : Nat
  fd : Int
deriving DecidableEq

/-- A memory-region slot after `memset(reg, 0, sizeof(*reg))` (also the state
every slot has after the zero-initialization of the vdev). -/
def zeroRegion : GuestMemoryRegion :=
  { gpa := 0, uva := 0, hva := none, pages := 0, fd := 0 }

instance : Inhabited GuestMemoryRegion := ⟨zeroRegion⟩

/-- `is_region_mapped`: a region is live iff its `hva` is not NULL. -/
def is_region_mapped (r : GuestMemoryRegion) : Bool := r.hva.isSome

/-- `region_size_bytes`: `(size_t)reg->pages << PAGE_SHIFT`. -/
def region_size_bytes (r : GuestMemoryRegion) : Nat := r.pages * PAGE_SIZE

/-- `map_guest_region`.  The result of the single `mmap` call the function may
perform is passed in as `mmap_result` (`none` = `MAP_FAILED`, with errno
`mmap_errno`).  Returns the C result code, the updated region table and the
trace of external calls. -/
def map_guest_region (memmap : List GuestMemoryRegion) (index : Nat)
    (guest_addr user_addr size offset : Nat) (fd : Int)
    (mmap_result : Option Nat) (mmap_errno : Int) :
    Int × List GuestMemoryRegion × List Eff :=
  if VHOST_USER_MEM_REGIONS_MAX ≤ index then (EINVAL, memmap, [])
  else if size % PAGE_SIZE ≠ 0 then (EINVAL, memmap, [])
  else if offset % PAGE_SIZE ≠ 0 then (EINVAL, memmap, [])
  else
    let pages : Nat := (size / 2 ^ PAGE_SHIFT) % U32
    let region := memmap.getD index zeroRegion
    if region.hva.isSome then
      if region.gpa = guest_addr ∧ region.pages = pages then
        (0, memmap, [Eff.closeFd fd])
      else (EBUSY, memmap, [])
    else
      match mmap_result with
      | none => (mmap_errno, memmap, [])
      | some vaddr =>
          (0, memmap.set index
                { fd := fd, hva := some vaddr, gpa := guest_addr,
                  uva := user_addr, pages := pages }, [])

/-- `unmap_guest_region`: munmap and close if live, then zero the slot. -/
def unmap_guest_region (reg : GuestMemoryRegion) : GuestMemoryRegion × List Eff :=
  if is_region_mapped reg then
    (zeroRegion, [Eff.munmapHva (reg.hva.getD 0), Eff.closeFd reg.fd])
  else (reg, [])

/-- `vhd_guest_memory_unmap_all`: unmap every slot of the table in order. -/
def vhd_guest_memory_unmap_all :
    List GuestMemoryRegion → List GuestMemoryRegion × List Eff
  | [] => ([], [])
  | r :: rest =>
      let (r', e) := unmap_guest_region r
      let (rest', es) := vhd_guest_memory_unmap_all rest
      (r' :: rest', e ++ es)

/-- `map_uva`: translate a master user-space address to a host address by
scanning the region table in order. -/
def map_uva : List GuestMemoryRegion → Nat → Option Nat
  | [], _ => none
  | r :: rest, uva =>
      if is_region_mapped r ∧ r.uva ≤ uva ∧ uva - r.uva < region_size_bytes r then
        some (r.hva.getD 0 + (uva - r.uva))
      else map_uva rest uva

/-- The scanning loop of `map_gpa_len`.  `last_gpa` is the already-computed
`gpa + len - 1` (reduced mod `2^64` as the `uint64_t` addition would), and the
containment check `last_gpa - reg->gpa >= region_size_bytes(reg)` is modelled
with the wrap-around of unsigned subtraction made explicit. -/
def map_gpa_len_go (gpa last_gpa : Nat) : List GuestMemoryRegion → Option Nat
  | [] => none
  | r :: rest =>
      if is_region_mapped r ∧ r.gpa ≤ gpa ∧ gpa - r.gpa < region_size_bytes r then
        if region_size_bytes r ≤ (last_gpa + U64 - r.gpa) % U64 then none
        else some (r.hva.getD 0 + (gpa - r.gpa))
      else map_gpa_len_go gpa last_gpa rest

/-- `map_gpa_len` (the body of `translate_gpa_len` /
`virtio_map_guest_phys_range`): translate a guest-physical range to a host
address, requiring the whole of `[gpa, gpa+len)` to fit inside the one region
that the scan finds. -/
def map_gpa_len (memmap : List GuestMemoryRegion) (gpa len : Nat) : Option Nat :=
  if len = 0 then none
  else map_gpa_len_go gpa ((gpa + len - 1) % U64) memmap

/-- The per-region guard of the `map_gpa_len` scan: the region is mapped and
contains the single address `gpa`. -/
def region_covers_gpa (r : GuestMemoryRegion) (gpa : Nat) : Bool :=
  is_region_mapped r && decide (r.gpa ≤ gpa) &&
    decide (gpa - r.gpa < region_size_bytes r)

/-- Stated from the claim's words, for comparison with `map_gpa_len`: some
single mapped region fully contains `[gpa, gpa+len)` (exact arithmetic). -/
def some_region_fully_contains (memmap : List GuestMemoryRegion)
    (gpa len : Nat) : Bool :=
  memmap.any fun r =>
    is_region_mapped r && decide (r.gpa ≤ gpa) &&
      decide (gpa + len ≤ r.gpa + region_size_bytes r)

/-- Modelled from the spec: one region descriptor of the `SET_MEM_TABLE`
payload (`struct vhost_user_mem_region`, absent from the source tree). -/
structure VhostUserMemRegion where
  guest_addr : Nat
  user_addr : Nat
  size : Nat
  mmap_offset : Nat
deriving DecidableEq

instance : Inhabited VhostUserMemRegion := ⟨⟨0, 0, 0, 0⟩⟩

/-- Modelled from the spec: the `SET_MEM_TABLE` payload
(`struct vhost_user_mem_desc`). -/
structure VhostUserMemDesc where
  nregions : Nat
  regions : List VhostUserMemRegion
deriving DecidableEq

/-- The `for (i = 0; i < desc->nregions; i++)` loop of `vhost_set_mem_table`:
`i` is the current index and the fuel argument counts the remaining
iterations (`desc.nregions - i`).  `mmapf i` is the result of the `mmap`
performed for region `i`.  On a failing step the remaining passed fds are
closed and the whole table is unmapped. -/
def set_mem_table_loop (mmapf : Nat → Option Nat) (mmap_errno : Int)
    (desc : VhostUserMemDesc) (fds : List Int)
    (memmap : List GuestMemoryRegion) (i : Nat) :
    Nat → Int × List GuestMemoryRegion × List Eff
  | 0 => (0, memmap, [])
  | n + 1 =>
      let rd := desc.regions.getD i default
      let (err, memmap', effs) :=
        map_guest_region memmap i rd.guest_addr rd.user_addr rd.size
          rd.mmap_offset (fds.getD i 0) (mmapf i) mmap_errno
      if err ≠ 0 then
        let closes := (List.range (n + 1)).map fun k => Eff.closeFd (fds.getD (i + k) 0)
        let (memmap2, eff2) := vhd_guest_memory_unmap_all memmap'
        (err, memmap2, effs ++ closes ++ eff2)
      else
        let (r2, m2, e2) := set_mem_table_loop mmapf mmap_errno desc fds memmap' (i + 1) n
        (r2, m2, effs ++ e2)

/-- `vhost_set_mem_table`, at the level of the region table it mutates:
reject more than `VHOST_USER_MEM_REGIONS_MAX` regions, otherwise map each
described region in order with rollback on failure. -/
def vhost_set_mem_table (mmapf : Nat → Option Nat) (mmap_errno : Int)
    (desc : VhostUserMemDesc) (fds : List Int)
    (memmap : List GuestMemoryRegion) :
    Int × List GuestMemoryRegion × List Eff :=
  if VHOST_USER_MEM_REGIONS_MAX < desc.nregions then (EINVAL, memmap, [])
  else set_mem_table_loop mmapf mmap_errno desc fds memmap 0 desc.nregions

/-- Modelled from the spec: feature bit `VHOST_USER_F_PROTOCOL_FEATURES`
(bit 30 of the master-features word). -/
def VHOST_USER_F_PROTOCOL_FEATURES : Nat := 30

/-- Modelled from the spec: protocol feature bit
`VHOST_USER_PROTOCOL_F_REPLY_ACK` (bit 3 of the protocol-features word). -/
def VHOST_USER_PROTOCOL_F_REPLY_ACK : Nat := 3

/-- Modelled from the spec: message `flags` carry a 2-bit version that must be
1, so a reply is stamped with version 1 plus the `REPLY` bit (bit 2). -/
def VHOST_USER_MSG_FLAGS_REPLY : Nat := 5

/-- Modelled from the spec: the `REPLY_ACK` flag is bit 3 of `flags`. -/
def VHOST_USER_MSG_FLAGS_REPLY_ACK : Nat := 8

/-- Modelled from the spec: the low bits of the `u64` payload of the
`SET_VRING_{KICK,CALL,ERR}` messages select the vring index. -/
def VHOST_VRING_IDX_MASK : Nat := 255

/-- Modelled from the spec: the `INVALID_FD` bit of the same payload marks
polling mode (no fd transferred). -/
def VHOST_VRING_INVALID_FD : Nat := 256

/-- `has_feature`: test a feature bit in a features qword. -/
def has_feature (features_qword : Nat) (feature_bit : Nat) : Bool :=
  decide (features_qword &&& (1 <<< feature_bit) ≠ 0)

/-- `g_default_features`: `1 << VHOST_USER_F_PROTOCOL_FEATURES`. -/
def g_default_features : Nat := 1 <<< VHOST_USER_F_PROTOCOL_FEATURES

/-- `struct vring_client_info`: ring geometry accumulated during negotiation.
The three ring addresses are host pointers (`none` = NULL, the zero-initialized
state). -/
structure VringClientInfo where
  desc_addr : Option Nat
  avail_addr : Option Nat
  used_addr : Option Nat
  num : Nat
  base : Nat
  inflight_addr : Option Nat
deriving DecidableEq

/-- `client_info` after zero-initialization. -/
def zeroClientInfo : VringClientInfo :=
  { desc_addr := none, avail_addr := none, used_addr := none,
    num := 0, base := 0, inflight_addr := none }

/-- `struct vhd_vring`.  The attached virtqueue primitive is abstracted to
whether it is attached, its notify fd and its `last_avail` cursor (the only
parts of it this code reads or writes). -/
structure VhdVring where
  id : Nat
  kickfd : Int
  callfd : Int
  errfd : Int
  is_enabled : Bool
  vq_attached : Bool
  vq_notify_fd : Int
  vq_last_avail : Nat
  client_info : VringClientInfo
deriving DecidableEq

/-- `vhd_vring_init` applied to a calloc-zeroed vring: sets `id`, puts the
kick/call fds to `-1` and leaves everything else zero (note that `errfd`
stays 0). -/
def vhd_vring_init (id : Nat) : VhdVring :=
  { id := id, kickfd := -1, callfd := -1, errfd := 0, is_enabled := false,
    vq_attached := false, vq_notify_fd := 0, vq_last_avail := 0,
    client_info := zeroClientInfo }

instance : Inhabited VhdVring := ⟨vhd_vring_init 0⟩

/-- `vring_set_enable`.  `attach_res` and `event_res` are the results the
environment gives to `virtio_virtq_attach` and `vhd_attach_event`. -/
def vring_set_enable (r : VhdVring) (do_enable : Bool)
    (attach_res event_res : Int) : Int × VhdVring × List Eff :=
  if do_enable = r.is_enabled then (0, r, [])
  else if do_enable then
    if attach_res ≠ 0 then (attach_res, r, [Eff.virtqAttach r.id])
    else if event_res ≠ 0 then
      (event_res, { r with vq_attached := false, vq_notify_fd := r.callfd },
       [Eff.virtqAttach r.id, Eff.setNotifyFd r.callfd,
        Eff.attachEvent r.kickfd, Eff.virtqRelease r.id])
    else
      (0, { r with vq_attached := true, vq_notify_fd := r.callfd, is_enabled := true },
       [Eff.virtqAttach r.id, Eff.setNotifyFd r.callfd, Eff.attachEvent r.kickfd])
  else
    (0, { r with is_enabled := false, vq_attached := false },
     [Eff.detachEvent r.kickfd, Eff.virtqRelease r.id])

/-- `vhd_vring_uninit`: a no-op on a vring that is not enabled, otherwise
disable it via `vring_set_enable`. -/
def vhd_vring_uninit (r : VhdVring) : VhdVring × List Eff :=
  if r.is_enabled then
    let (_, r', e) := vring_set_enable r false 0 0
    (r', e)
  else (r, [])

/-- Modelled from the spec: `sizeof(struct inflight_split_region)` — the fixed
width of the per-queue inflight header, set by the vhost-user inflight I/O
extension (the struct lives in the protocol header absent from the source). -/
def INFLIGHT_SPLIT_REGION_SIZE : Nat := 16

/-- Modelled from the spec: `sizeof(struct inflight_split_desc)`, likewise
fixed by the vhost-user inflight I/O extension. -/
def INFLIGHT_SPLIT_DESC_SIZE : Nat := 16

/-- `vring_inflight_buf_size`: per-queue inflight buffer size. -/
def vring_inflight_buf_size (num : Nat) : Nat :=
  INFLIGHT_SPLIT_REGION_SIZE + num * INFLIGHT_SPLIT_DESC_SIZE

/-- `struct inflight_split_region`: the per-queue header followed by its
descriptor-state entries, viewed structurally; `descs` holds the bytes of the
`desc_num` trailing `inflight_split_desc` entries, abstracted to one value per
descriptor slot. -/
structure InflightSplitRegion where
  features : Nat
  version : Nat
  desc_num : Nat
  last_batch_head : Nat
  used_idx : Nat
  descs : List Nat
deriving DecidableEq

/-- One per-queue sub-region of the inflight buffer after `memset(.., 0, ..)`
over a buffer laid out for queues of `qsize` descriptors. -/
def zeroInflightRegion (qsize : Nat) : InflightSplitRegion :=
  { features := 0, version := 0, desc_num := 0, last_batch_head := 0,
    used_idx := 0, descs := List.replicate qsize 0 }

/-- `inflight_split_region_init`: write a fresh header into a per-queue
sub-region (the trailing descriptor entries are left as they are). -/
def inflight_split_region_init (qsize : Nat) (r : InflightSplitRegion) :
    InflightSplitRegion :=
  { r with features := 0, version := 1, desc_num := qsize,
           last_batch_head := 0, used_idx := 0 }

/-- The connection state machine states (`enum vhd_vdev_state`). -/
inductive VdevState where
  | INITIALIZED
  | LISTENING
  | CONNECTED
deriving DecidableEq

/-- `struct vhd_vdev`, restricted to the state the protocol engine reads and
writes.  The inflight mapping is `inflight_mem : Option (List InflightSplitRegion)`
(`none` = not mapped), holding the structural view of the mapped bytes. -/
structure VhdVdev where
  state : VdevState
  listenfd : Int
  connfd : Int
  is_owned : Bool
  supported_features : Nat
  negotiated_features : Nat
  supported_protocol_features : Nat
  negotiated_protocol_features : Nat
  max_queues : Nat
  num_queues : Nat
  vrings : List VhdVring
  guest_memmap : List GuestMemoryRegion
  inflightfd : Int
  inflight_mem : Option (List InflightSplitRegion)
  inflight_size : Nat
deriving DecidableEq

/-- The `for (i = 0; i < max_queues; ++i) vhd_vring_uninit(...)` loops of
`change_device_state` and `vhd_vdev_uninit`, over the vring array. -/
def uninit_vrings : List VhdVring → List VhdVring × List Eff
  | [] => ([], [])
  | r :: rest =>
      let (r', e) := vhd_vring_uninit r
      let (rest', es) := uninit_vrings rest
      (r' :: rest', e ++ es)

/-- `change_device_state`.  `add_event_res` is the result the environment gives
to the single `vhd_add_vhost_event` call a successful transition performs. -/
def change_device_state (v : VhdVdev) (new_state : VdevState)
    (add_event_res : Int) : Int × VhdVdev × List Eff :=
  match new_state, v.state with
  | VdevState.LISTENING, VdevState.CONNECTED =>
      let (m', eu) := vhd_guest_memory_unmap_all v.guest_memmap
      let (vr', ev) := uninit_vrings v.vrings
      let effs := Eff.delVhostEvent v.connfd :: eu ++ ev ++
        [Eff.closeFd v.connfd, Eff.addVhostEvent v.listenfd]
      let v1 := { v with guest_memmap := m', is_owned := false,
                         vrings := vr', connfd := -1 }
      if add_event_res ≠ 0 then (add_event_res, v1, effs)
      else (0, { v1 with state := VdevState.LISTENING }, effs)
  | VdevState.LISTENING, VdevState.INITIALIZED =>
      if add_event_res ≠ 0 then (add_event_res, v, [Eff.addVhostEvent v.listenfd])
      else (0, { v with state := VdevState.LISTENING }, [Eff.addVhostEvent v.listenfd])
  | VdevState.CONNECTED, VdevState.LISTENING =>
      if add_event_res ≠ 0 then (add_event_res, v, [Eff.addVhostEvent v.connfd])
      else (0, { v with state := VdevState.CONNECTED },
            [Eff.addVhostEvent v.connfd, Eff.delVhostEvent v.listenfd])
  | _, _ => (-EINVAL, v, [])

/-- `vhd_vdev_inflight_cleanup`: release the inflight mapping if there is one
(note that `inflight_size` is left as it was). -/
def vhd_vdev_inflight_cleanup (v : VhdVdev) : VhdVdev × List Eff :=
  if v.inflightfd = -1 then (v, [])
  else ({ v with inflightfd := -1, inflight_mem := none },
        [Eff.munmapInflight, Eff.closeFd v.inflightfd])

/-- `vhd_vdev_uninit` (on a non-null vdev): close the listen fd, uninit every
vring, release the inflight region. -/
def vhd_vdev_uninit (v : VhdVdev) : VhdVdev × List Eff :=
  let (vr', ev) := uninit_vrings v.vrings
  let (v1, ei) := vhd_vdev_inflight_cleanup { v with vrings := vr' }
  (v1, Eff.closeFd v.listenfd :: ev ++ ei)

/-- Modelled from the spec: `sizeof(struct vhost_user_config_space) -
sizeof(config->payload)` — the fixed part of the `GET_CONFIG` payload
(offset/size/flags words preceding the byte payload). -/
def VHOST_USER_CONFIG_HDR_SIZE : Nat := 12

/-- Modelled from the spec: `struct vhost_user_msg` — the 12-byte header
`{req, flags, size}` and the typed payload union, flattened to one field per
payload member the handlers read (a handler only ever reads the member
matching its opcode). -/
structure VhostUserMsg where
  req : VhostUserReq
  flags : Nat
  size : Nat
  u64 : Nat
  vring_state_index : Nat
  vring_state_num : Nat
  vring_addr_index : Nat
  vring_addr_desc : Nat
  vring_addr_used : Nat
  vring_addr_avail : Nat
  mem_desc : VhostUserMemDesc
  config_size : Nat
  inflight_mmap_size : Nat
  inflight_mmap_offset : Nat
  inflight_num_queues : Nat
  inflight_queue_size : Nat
deriving DecidableEq

/-- Results the outside world hands to the at-most-one call per call site a
single dispatch can make: the device-type callbacks, the two possible sends,
the virtqueue/event attachments, and the mmap/memfd/ftruncate calls. -/
structure Env where
  dev_features : Nat
  dev_config_size : Nat
  reply_res : Int
  ack_res : Int
  attach_res : Int
  event_res : Int
  mmap : Nat → Option Nat
  mmap_errno : Int
  memfd : Option Int
  memfd_errno : Int
  ftruncate_res : Int
  inflight_mmap : Option Nat
  inflight_mmap_errno : Int
  master_inflight : List InflightSplitRegion

/-- Result of one message dispatch: the C return code, the vdev, the message
buffer (which some handlers mutate in place), and the effect trace. -/
structure HRes where
  ret : Int
  vdev : VhdVdev
  msg : VhostUserMsg
  effs : List Eff
deriving DecidableEq

/-- `vhost_send_reply` called from inside a handler: emit the u64 reply and
report the environment's send result. -/
def vhost_send_reply (env : Env) (req : VhostUserReq) (val : Int) :
    Int × List Eff :=
  (env.reply_res, [Eff.sendMsg (Reply.u64 req val)])

/-- `vhost_get_features`: recompute `supported_features` from the device type
and reply with it. -/
def vhost_get_features (env : Env) (v : VhdVdev) (msg : VhostUserMsg) : HRes :=
  let v1 := { v with supported_features := g_default_features ||| env.dev_features }
  let (r, e) := vhost_send_reply env msg.req (Int.ofNat v1.supported_features)
  ⟨r, v1, msg, e⟩

/-- `vhost_set_features`: negotiate `requested & supported`. -/
def vhost_set_features (v : VhdVdev) (msg : VhostUserMsg) : HRes :=
  ⟨0, { v with negotiated_features := msg.u64 &&& v.supported_features }, msg, []⟩

/-- `vhost_set_owner`: set `is_owned` (idempotent, warns if already owned). -/
def vhost_set_owner (v : VhdVdev) (msg : VhostUserMsg) : HRes :=
  ⟨0, { v with is_owned := true }, msg, []⟩

/-- `vhost_reset_owner`: unsupported. -/
def vhost_reset_owner (v : VhdVdev) (msg : VhostUserMsg) : HRes :=
  ⟨ENOTSUP, v, msg, []⟩

/-- `vhost_get_protocol_features`: reply with the supported protocol features. -/
def vhost_get_protocol_features (env : Env) (v : VhdVdev) (msg : VhostUserMsg) : HRes :=
  let (r, e) := vhost_send_reply env msg.req (Int.ofNat v.supported_protocol_features)
  ⟨r, v, msg, e⟩

/-- The `~supported` complement of a `uint64_t` features word. -/
def complement64 (x : Nat) : Nat := (U64 - 1) ^^^ (x % U64)

/-- `vhost_set_protocol_features`: drop (with a warning) any bit the slave did
not offer, then store the result. -/
def vhost_set_protocol_features (v : VhdVdev) (msg : VhostUserMsg) : HRes :=
  let feats0 := msg.u64
  let feats :=
    if feats0 &&& complement64 v.supported_protocol_features ≠ 0 then
      feats0 &&& v.supported_protocol_features
    else feats0
  ⟨0, { v with negotiated_protocol_features := feats }, msg, []⟩

/-- `vhost_get_config`: let the device type fill the config payload, then echo
the message back with the `REPLY` flag (note the in-place mutation of the
message's flags and size). -/
def vhost_get_config (env : Env) (v : VhdVdev) (msg : VhostUserMsg) : HRes :=
  let csize := env.dev_config_size
  let msg1 := { msg with config_size := csize,
                         flags := VHOST_USER_MSG_FLAGS_REPLY,
                         size := VHOST_USER_CONFIG_HDR_SIZE + csize }
  ⟨env.reply_res, v, msg1, [Eff.sendMsg (Reply.config csize)]⟩

/-- `vhost_set_config`: unsupported. -/
def vhost_set_config (v : VhdVdev) (msg : VhostUserMsg) : HRes :=
  ⟨ENOTSUP, v, msg, []⟩

/-- `vhost_get_queue_num`: reply with `max_queues`. -/
def vhost_get_queue_num (env : Env) (v : VhdVdev) (msg : VhostUserMsg) : HRes :=
  let (r, e) := vhost_send_reply env msg.req (Int.ofNat v.max_queues)
  ⟨r, v, msg, e⟩

/-- `enum vring_desc_type`. -/
inductive VringDescType where
  | VRING_KICKFD
  | VRING_CALLFD
  | VRING_ERRFD
deriving DecidableEq

/-- `vhost_set_vring_fd_common`: decode the vring index and the `INVALID_FD`
bit from the `u64` payload, then store the transferred fd; a kick fd enables
the vring immediately when `VHOST_USER_F_PROTOCOL_FEATURES` was not
negotiated, a call fd on an enabled vring updates the virtqueue notify target. -/
def vhost_set_vring_fd_common (env : Env) (v : VhdVdev) (msg : VhostUserMsg)
    (fd : Int) (t : VringDescType) : HRes :=
  let vring_idx := msg.u64 &&& VHOST_VRING_IDX_MASK
  if msg.u64 &&& VHOST_VRING_INVALID_FD ≠ 0 then ⟨ENOTSUP, v, msg, []⟩
  else if v.num_queues ≤ vring_idx then ⟨EINVAL, v, msg, []⟩
  else
    let r := v.vrings.getD vring_idx default
    match t with
    | VringDescType.VRING_KICKFD =>
        let r1 := { r with kickfd := fd }
        if ¬ has_feature v.negotiated_features VHOST_USER_F_PROTOCOL_FEATURES then
          let (res, r2, e) := vring_set_enable r1 true env.attach_res env.event_res
          ⟨res, { v with vrings := v.vrings.set vring_idx r2 }, msg, e⟩
        else ⟨0, { v with vrings := v.vrings.set vring_idx r1 }, msg, []⟩
    | VringDescType.VRING_CALLFD =>
        let r1 := { r with callfd := fd }
        if r1.is_enabled then
          ⟨0, { v with vrings := v.vrings.set vring_idx ({ r1 with vq_notify_fd := fd }) },
           msg, [Eff.setNotifyFd fd]⟩
        else ⟨0, { v with vrings := v.vrings.set vring_idx r1 }, msg, []⟩
    | VringDescType.VRING_ERRFD =>
        ⟨0, { v with vrings := v.vrings.set vring_idx ({ r with errfd := fd }) }, msg, []⟩

/-- `vhost_set_vring_call`. -/
def vhost_set_vring_call (env : Env) (v : VhdVdev) (msg : VhostUserMsg)
    (fds : List Int) : HRes :=
  vhost_set_vring_fd_common env v msg (fds.getD 0 0) VringDescType.VRING_CALLFD

/-- `vhost_set_vring_kick`. -/
def vhost_set_vring_kick (env : Env) (v : VhdVdev) (msg : VhostUserMsg)
    (fds : List Int) : HRes :=
  vhost_set_vring_fd_common env v msg (fds.getD 0 0) VringDescType.VRING_KICKFD

/-- `vhost_set_vring_err`. -/
def vhost_set_vring_err (env : Env) (v : VhdVdev) (msg : VhostUserMsg)
    (fds : List Int) : HRes :=
  vhost_set_vring_fd_common env v msg (fds.getD 0 0) VringDescType.VRING_ERRFD

/-- `vhost_set_vring_num`: requires the indexed vring to exist and be
disabled, then stores `num` into `client_info`. -/
def vhost_set_vring_num (v : VhdVdev) (msg : VhostUserMsg) : HRes :=
  let idx := msg.vring_state_index
  if v.num_queues ≤ idx then ⟨EINVAL, v, msg, []⟩
  else
    let r := v.vrings.getD idx default
    if r.is_enabled then ⟨EINVAL, v, msg, []⟩
    else
      let r1 := { r with client_info := { r.client_info with num := msg.vring_state_num } }
      ⟨0, { v with vrings := v.vrings.set idx r1 }, msg, []⟩

/-- `vhost_set_vring_base`: like `SET_VRING_NUM` but stores the `base`. -/
def vhost_set_vring_base (v : VhdVdev) (msg : VhostUserMsg) : HRes :=
  let idx := msg.vring_state_index
  if v.num_queues ≤ idx then ⟨EINVAL, v, msg, []⟩
  else
    let r := v.vrings.getD idx default
    if r.is_enabled then ⟨EINVAL, v, msg, []⟩
    else
      let r1 := { r with client_info := { r.client_info with base := msg.vring_state_num } }
      ⟨0, { v with vrings := v.vrings.set idx r1 }, msg, []⟩

/-- `vhost_get_vring_base`: reply with `vq.last_avail`, first auto-disabling
the vring when `VHOST_USER_F_PROTOCOL_FEATURES` was not negotiated. -/
def vhost_get_vring_base (env : Env) (v : VhdVdev) (msg : VhostUserMsg) : HRes :=
  let idx := msg.vring_state_index
  if v.num_queues ≤ idx then ⟨EINVAL, v, msg, []⟩
  else
    let r := v.vrings.getD idx default
    let vq_base := r.vq_last_avail
    if ¬ has_feature v.negotiated_features VHOST_USER_F_PROTOCOL_FEATURES then
      let (err, r1, e) := vring_set_enable r false env.attach_res env.event_res
      if err ≠ 0 then ⟨err, { v with vrings := v.vrings.set idx r1 }, msg, e⟩
      else
        let (rr, es) := vhost_send_reply env msg.req (Int.ofNat vq_base)
        ⟨rr, { v with vrings := v.vrings.set idx r1 }, msg, e ++ es⟩
    else
      let (rr, es) := vhost_send_reply env msg.req (Int.ofNat vq_base)
      ⟨rr, v, msg, es⟩

/-- `vhost_set_vring_addr`: requires the indexed vring to exist and be
disabled; all three ring addresses must translate via `map_uva`, and on
success the translated host addresses are stored into `client_info`. -/
def vhost_set_vring_addr (v : VhdVdev) (msg : VhostUserMsg) : HRes :=
  let idx := msg.vring_addr_index
  if v.num_queues ≤ idx then ⟨EINVAL, v, msg, []⟩
  else
    let r := v.vrings.getD idx default
    if r.is_enabled then ⟨EINVAL, v, msg, []⟩
    else
      let desc_addr := map_uva v.guest_memmap msg.vring_addr_desc
      let used_addr := map_uva v.guest_memmap msg.vring_addr_used
      let avail_addr := map_uva v.guest_memmap msg.vring_addr_avail
      if desc_addr = none ∨ used_addr = none ∨ avail_addr = none then
        ⟨EINVAL, v, msg, []⟩
      else
        let ci := { r.client_info with desc_addr := desc_addr,
                                       used_addr := used_addr,
                                       avail_addr := avail_addr }
        ⟨0, { v with vrings := v.vrings.set idx ({ r with client_info := ci }) },
         msg, []⟩

/-- `vhost_set_vring_enable`: enable or disable the indexed vring per the
payload (`num == 1` enables). -/
def vhost_set_vring_enable (env : Env) (v : VhdVdev) (msg : VhostUserMsg) : HRes :=
  let idx := msg.vring_state_index
  if v.num_queues ≤ idx then ⟨EINVAL, v, msg, []⟩
  else
    let r := v.vrings.getD idx default
    let (res, r1, e) := vring_set_enable r (msg.vring_state_num = 1)
      env.attach_res env.event_res
    ⟨res, { v with vrings := v.vrings.set idx r1 }, msg, e⟩

/-- `vhost_get_inflight_fd`: release the previous region, create and size a
fresh anonymous file, map it, zero it, write a per-queue header for every
queue, and reply (echoing the message) with `mmap_size`/`mmap_offset` and the
fd; a failed reply unmaps and forgets the region again. -/
def vhost_get_inflight_fd (env : Env) (v : VhdVdev) (msg : VhostUserMsg) : HRes :=
  let (v1, e1) := vhd_vdev_inflight_cleanup v
  let size := vring_inflight_buf_size msg.inflight_queue_size * msg.inflight_num_queues
  match env.memfd with
  | none => ⟨env.memfd_errno, v1, msg, e1⟩
  | some fd =>
    if env.ftruncate_res ≠ 0 then
      ⟨env.ftruncate_res, v1, msg, e1 ++ [Eff.closeFd fd]⟩
    else
      match env.inflight_mmap with
      | none => ⟨env.inflight_mmap_errno, v1, msg, e1 ++ [Eff.closeFd fd]⟩
      | some _addr =>
          let buf0 := List.replicate msg.inflight_num_queues
            (zeroInflightRegion msg.inflight_queue_size)
          let buf := buf0.map (inflight_split_region_init msg.inflight_queue_size)
          let v2 := { v1 with inflightfd := fd, inflight_size := size,
                              inflight_mem := some buf }
          let msg1 := { msg with inflight_mmap_size := size,
                                 inflight_mmap_offset := 0,
                                 flags := VHOST_USER_MSG_FLAGS_REPLY }
          if env.reply_res ≠ 0 then
            ⟨env.reply_res, { v2 with inflightfd := -1, inflight_mem := none }, msg1,
             e1 ++ [Eff.sendMsg (Reply.inflight size 0 fd), Eff.munmapInflight,
                    Eff.closeFd fd]⟩
          else
            ⟨0, v2, msg1, e1 ++ [Eff.sendMsg (Reply.inflight size 0 fd)]⟩

/-- `vhost_set_inflight_fd`: release the previous region and adopt the region
the master passed in (its contents are whatever the master put there). -/
def vhost_set_inflight_fd (env : Env) (v : VhdVdev) (msg : VhostUserMsg)
    (fds : List Int) : HRes :=
  let (v1, e1) := vhd_vdev_inflight_cleanup v
  let fd0 := fds.getD 0 0
  match env.inflight_mmap with
  | none => ⟨env.inflight_mmap_errno, v1, msg, e1 ++ [Eff.closeFd fd0]⟩
  | some _addr =>
      ⟨0, { v1 with inflightfd := fd0, inflight_mem := some env.master_inflight,
                    inflight_size := msg.inflight_mmap_size }, msg, e1⟩

/-- `vhost_ack_request_if_needed`: nothing to do unless `REPLY_ACK` was
negotiated and the (possibly handler-mutated) message still carries the
`REPLY_ACK` flag; a successfully handled request whose opcode is one of the
five listed getters is assumed already answered; otherwise send a u64 reply
carrying the handler status. -/
def vhost_ack_request_if_needed (env : Env) (v : VhdVdev) (msg : VhostUserMsg)
    (ret : Int) : Int × List Eff :=
  if ¬ has_feature v.negotiated_protocol_features VHOST_USER_PROTOCOL_F_REPLY_ACK then
    (0, [])
  else if msg.flags &&& VHOST_USER_MSG_FLAGS_REPLY_ACK = 0 then (0, [])
  else if ret = 0 ∧ (msg.req = VhostUserReq.GET_FEATURES ∨
                     msg.req = VhostUserReq.GET_PROTOCOL_FEATURES ∨
                     msg.req = VhostUserReq.GET_CONFIG ∨
                     msg.req = VhostUserReq.GET_QUEUE_NUM ∨
                     msg.req = VhostUserReq.GET_VRING_BASE) then (0, [])
  else (env.ack_res, [Eff.sendAck ret])

/-- The opcode dispatch switch of `vhost_handle_request` (before the ack
logic). -/
def vhost_handle_request_switch (env : Env) (v : VhdVdev) (msg : VhostUserMsg)
    (fds : List Int) : HRes :=
  match msg.req with
  | VhostUserReq.GET_FEATURES => vhost_get_features env v msg
  | VhostUserReq.SET_FEATURES => vhost_set_features v msg
  | VhostUserReq.SET_OWNER => vhost_set_owner v msg
  | VhostUserReq.RESET_OWNER => vhost_reset_owner v msg
  | VhostUserReq.GET_PROTOCOL_FEATURES => vhost_get_protocol_features env v msg
  | VhostUserReq.SET_PROTOCOL_FEATURES => vhost_set_protocol_features v msg
  | VhostUserReq.GET_CONFIG => vhost_get_config env v msg
  | VhostUserReq.SET_CONFIG => vhost_set_config v msg
  | VhostUserReq.SET_MEM_TABLE =>
      let (r, m, e) := vhost_set_mem_table env.mmap env.mmap_errno msg.mem_desc
        fds v.guest_memmap
      ⟨r, { v with guest_memmap := m }, msg, e⟩
  | VhostUserReq.GET_QUEUE_NUM => vhost_get_queue_num env v msg
  | VhostUserReq.SET_VRING_CALL => vhost_set_vring_call env v msg fds
  | VhostUserReq.SET_VRING_KICK => vhost_set_vring_kick env v msg fds
  | VhostUserReq.SET_VRING_ERR => vhost_set_vring_err env v msg fds
  | VhostUserReq.SET_VRING_NUM => vhost_set_vring_num v msg
  | VhostUserReq.SET_VRING_BASE => vhost_set_vring_base v msg
  | VhostUserReq.GET_VRING_BASE => vhost_get_vring_base env v msg
  | VhostUserReq.SET_VRING_ADDR => vhost_set_vring_addr v msg
  | VhostUserReq.SET_VRING_ENABLE => vhost_set_vring_enable env v msg
  | VhostUserReq.SET_LOG_BASE => ⟨ENOTSUP, v, msg, []⟩
  | VhostUserReq.SET_LOG_FD => ⟨ENOTSUP, v, msg, []⟩
  | VhostUserReq.SEND_RARP => ⟨ENOTSUP, v, msg, []⟩
  | VhostUserReq.NET_SET_MTU => ⟨ENOTSUP, v, msg, []⟩
  | VhostUserReq.SET_SLAVE_REQ_FD => ⟨ENOTSUP, v, msg, []⟩
  | VhostUserReq.IOTLB_MSG => ⟨ENOTSUP, v, msg, []⟩
  | VhostUserReq.SET_VRING_ENDIAN => ⟨ENOTSUP, v, msg, []⟩
  | VhostUserReq.CREATE_CRYPTO_SESSION => ⟨ENOTSUP, v, msg, []⟩
  | VhostUserReq.CLOSE_CRYPTO_SESSION => ⟨ENOTSUP, v, msg, []⟩
  | VhostUserReq.POSTCOPY_ADVISE => ⟨ENOTSUP, v, msg, []⟩
  | VhostUserReq.POSTCOPY_LISTEN => ⟨ENOTSUP, v, msg, []⟩
  | VhostUserReq.POSTCOPY_END => ⟨ENOTSUP, v, msg, []⟩
  | VhostUserReq.GET_INFLIGHT_FD => vhost_get_inflight_fd env v msg
  | VhostUserReq.SET_INFLIGHT_FD => vhost_set_inflight_fd env v msg fds
  | VhostUserReq.NONE => ⟨EINVAL, v, msg, []⟩

/-- `vhost_handle_request`: run the opcode handler, then the ack logic (on the
handler-mutated vdev and message); a failed ack send overrides the handler's
result. -/
def vhost_handle_request (env : Env) (v : VhdVdev) (msg : VhostUserMsg)
    (fds : List Int) : HRes :=
  let h := vhost_handle_request_switch env v msg fds
  let (reply_ret, ea) := vhost_ack_request_if_needed env h.vdev h.msg h.ret
  let ret := if reply_ret ≠ 0 then reply_ret else h.ret
  ⟨ret, h.vdev, h.msg, h.effs ++ ea⟩

/-- A concrete connected vdev used by the concrete instances below: one vring,
empty memory map, no inflight region, protocol features as offered by default. -/
def baseVdev : VhdVdev :=
  { state := VdevState.CONNECTED, listenfd := 10, connfd := 11, is_owned := true,
    supported_features := g_default_features, negotiated_features := 0,
    supported_protocol_features := 523, negotiated_protocol_features := 0,
    max_queues := 1, num_queues := 1, vrings := [vhd_vring_init 0],
    guest_memmap := List.replicate 8 zeroRegion,
    inflightfd := -1, inflight_mem := none, inflight_size := 0 }

/-- A concrete message with version-1 flags and an all-zero payload. -/
def baseMsg : VhostUserMsg :=
  { req := VhostUserReq.NONE, flags := 1, size := 0, u64 := 0,
    vring_state_index := 0, vring_state_num := 0, vring_addr_index := 0,
    vring_addr_desc := 0, vring_addr_used := 0, vring_addr_avail := 0,
    mem_desc := { nregions := 0, regions := [] }, config_size := 0,
    inflight_mmap_size := 0, inflight_mmap_offset := 0,
    inflight_num_queues := 0, inflight_queue_size := 0 }

/-- A concrete environment in which every external call succeeds. -/
def okEnv : Env :=
  { dev_features := 0, dev_config_size := 0, reply_res := 0, ack_res := 0,
    attach_res := 0, event_res := 0, mmap := fun _ => some 4096,
    mmap_errno := 12, memfd := some 7, memfd_errno := 24, ftruncate_res := 0,
    inflight_mmap := some 8192, inflight_mmap_errno := 12,
    master_inflight := [] }

/-- Helper: reading a list at the index just written. -/
theorem getD_set_eq {α : Type} (l : List α) (i : Nat) (a d : α)
    (h : i < l.length) : (l.set i a).getD i d = a := by
  induction l generalizing i with
  | nil => simp at h
  | cons x xs ih =>
      cases i with
      | zero => simp [List.set]
      | succ j =>
          simp only [List.set, List.getD_cons_succ]
          exact ih j (by simpa using h)

/-- Helper: reading a list at an index other than the one written. -/
theorem getD_set_ne {α : Type} (l : List α) (i j : Nat) (a d : α)
    (h : i ≠ j) : (l.set i a).getD j d = l.getD j d := by
  induction l generalizing i j with
  | nil => simp [List.set]
  | cons x xs ih =>
      cases i with
      | zero =>
          cases j with
          | zero => exact absurd rfl h
          | succ k => simp [List.set]
      | succ i' =>
          cases j with
          | zero => simp [List.set]
          | succ k =>
              simp only [List.set, List.getD_cons_succ]
              exact ih i' k (fun hc => h (by simp [hc]))

/-- Helper: writing back the value just read leaves the list unchanged. -/
theorem set_getD_self {α : Type} (l : List α) (i : Nat) (d : α)
    (h : i < l.length) : l.set i (l.getD i d) = l := by
  induction l generalizing i with
  | nil => simp at h
  | cons x xs ih =>
      cases i with
      | zero => simp [List.set]
      | succ j =>
          simp only [List.getD_cons_succ, List.set]
          rw [ih j (by simpa using h)]

/-- `getD_set_eq` in the `getElem?` normal form that `simp` produces. -/
theorem getD_set_eq' {α : Type} (l : List α) (i : Nat) (a d : α)
    (h : i < l.length) : (l.set i a)[i]?.getD d = a := by
  rw [← List.getD_eq_getElem?_getD]
  exact getD_set_eq l i a d h

/-- `getD_set_ne` in the `getElem?` normal form that `simp` produces. -/
theorem getD_set_ne' {α : Type} (l : List α) (i j : Nat) (a d : α)
    (h : i ≠ j) : (l.set i a)[j]?.getD d = l[j]?.getD d := by
  rw [← List.getD_eq_getElem?_getD, ← List.getD_eq_getElem?_getD]
  exact getD_set_ne l i j a d h

/-- The transition pairs the specification permits. -/
def allowed_transition : VdevState → VdevState → Bool
  | VdevState.INITIALIZED, VdevState.LISTENING => true
  | VdevState.LISTENING, VdevState.CONNECTED => true
  | VdevState.CONNECTED, VdevState.LISTENING => true
  | _, _ => false

/-- C1: `change_device_state` succeeds only for the transitions
INITIALIZED→LISTENING, LISTENING→CONNECTED and CONNECTED→LISTENING; for every
other pair it returns an error (`-EINVAL`) and leaves the device — in
particular its state field — completely untouched, and on the permitted pairs
it succeeds (moving the state to the requested one) whenever the event-loop
registration succeeds. -/
theorem change_device_state_only_listed_transitions (v : VhdVdev)
    (ns : VdevState) (ar : Int) :
    (allowed_transition v.state ns = false →
      change_device_state v ns ar = (-EINVAL, v, [])) ∧
    ((change_device_state v ns ar).1 = 0 →
      allowed_transition v.state ns = true ∧
      (change_device_state v ns ar).2.1.state = ns) ∧
    (allowed_transition v.state ns = true → ar = 0 →
      (change_device_state v ns ar).1 = 0) := by
  refine ⟨?_, ?_, ?_⟩ <;>
    cases hs : v.state <;> cases ns <;>
      simp [change_device_state, allowed_transition, hs, EINVAL] <;>
      split <;> simp_all

/-- Witness for C1 at a concrete invalid transition (CONNECTED→CONNECTED). -/
theorem change_device_state_only_listed_transitions_witness :
    change_device_state baseVdev VdevState.CONNECTED 0 = (-EINVAL, baseVdev, []) :=
  (change_device_state_only_listed_transitions baseVdev VdevState.CONNECTED 0).1
    (by decide)

/-- A vring that received a kick fd and ring geometry but was never enabled. -/
def c3Vring : VhdVring :=
  { vhd_vring_init 0 with kickfd := 5, client_info := { zeroClientInfo with num := 256 } }

/-- A connected vdev holding `c3Vring`. -/
def c3Vdev : VhdVdev := { baseVdev with vrings := [c3Vring] }

/-- C3 counterexample: after a successful CONNECTED→LISTENING transition a
never-enabled vring is returned completely untouched — its `kickfd` is still 5
and its `client_info.num` still 256, not the zero-initialized values (`-1`
and `0`) that `vhd_vring_init` produces — refuting the claim that every vring
is restored to its zero-initialized per-vring state. -/
theorem vring_uninit_not_zeroing_counterexample :
    (change_device_state c3Vdev VdevState.LISTENING 0).1 = 0 ∧
    (change_device_state c3Vdev VdevState.LISTENING 0).2.1.vrings = [c3Vring] ∧
    c3Vring.is_enabled = false ∧
    c3Vring.kickfd = 5 ∧ (vhd_vring_init 0).kickfd = -1 ∧
    c3Vring.client_info.num = 256 ∧ (vhd_vring_init 0).client_info.num = 0 := by
  decide

/-- Helper: every vring coming out of the uninit loop is disabled. -/
theorem uninit_vrings_all_disabled (rs : List VhdVring) :
    ∀ r ∈ (uninit_vrings rs).1, r.is_enabled = false := by
  induction rs with
  | nil => simp [uninit_vrings]
  | cons r rest ih =>
      intro r' hr'
      simp only [uninit_vrings] at hr'
      rcases List.mem_cons.mp hr' with h | h
      · subst h
        by_cases he : r.is_enabled
        · simp [vhd_vring_uninit, he, vring_set_enable]
        · simp only [vhd_vring_uninit, he, if_false]
          simpa using he
      · exact ih r' h

/-- C3 (amended): the CONNECTED→LISTENING transition and `vhd_vdev_uninit`
run `vhd_vring_uninit` on every vring; afterwards every vring is disabled
(its virtqueue released and kick event detached if it had been enabled), but a
vring that was not enabled is returned untouched, and the kick/call/err fds
and `client_info` are never reset. -/
theorem disconnect_and_uninit_disable_vrings (v : VhdVdev) (ar : Int)
    (hst : v.state = VdevState.CONNECTED) :
    ((change_device_state v VdevState.LISTENING ar).2.1.vrings
        = (uninit_vrings v.vrings).1) ∧
    (∀ r ∈ (change_device_state v VdevState.LISTENING ar).2.1.vrings,
        r.is_enabled = false) ∧
    (∀ r ∈ (vhd_vdev_uninit v).1.vrings, r.is_enabled = false) ∧
    (∀ r : VhdVring, r.is_enabled = false → (vhd_vring_uninit r).1 = r) ∧
    (∀ r : VhdVring, r.is_enabled = true →
        (vhd_vring_uninit r).1 =
          { r with is_enabled := false, vq_attached := false }) := by
  have hvr : (change_device_state v VdevState.LISTENING ar).2.1.vrings
      = (uninit_vrings v.vrings).1 := by
    simp only [change_device_state, hst]
    split <;> rfl
  refine ⟨hvr, ?_, ?_, ?_, ?_⟩
  · rw [hvr]; exact uninit_vrings_all_disabled v.vrings
  · intro r hr
    simp only [vhd_vdev_uninit, vhd_vdev_inflight_cleanup] at hr
    split at hr <;> exact uninit_vrings_all_disabled v.vrings r hr
  · intro r hr; simp [vhd_vring_uninit, hr]
  · intro r hr; simp [vhd_vring_uninit, hr, vring_set_enable]

/-- Witness for C3 (amended) at the concrete vdev `c3Vdev`. -/
theorem disconnect_and_uninit_disable_vrings_witness :
    (change_device_state c3Vdev VdevState.LISTENING 0).2.1.vrings
      = (uninit_vrings c3Vdev.vrings).1 :=
  (disconnect_and_uninit_disable_vrings c3Vdev 0 (by decide)).1

/-- C10: asking for the enable state the vring already has is an idempotent
no-op — `vring_set_enable` returns success, changes nothing and performs no
external call (no virtqueue attach/release, no event attach/detach), and the
`SET_VRING_ENABLE` handler on a valid index propagates this: the vdev comes
back entirely unchanged with an empty effect trace. -/
theorem vring_set_enable_idempotent (r : VhdVring) (do_enable : Bool)
    (a e : Int) (env : Env) (v : VhdVdev) (msg : VhostUserMsg)
    (hlen : v.num_queues ≤ v.vrings.length) :
    (do_enable = r.is_enabled → vring_set_enable r do_enable a e = (0, r, [])) ∧
    (msg.vring_state_index < v.num_queues →
     (v.vrings.getD msg.vring_state_index default).is_enabled
        = decide (msg.vring_state_num = 1) →
     vhost_set_vring_enable env v msg = ⟨0, v, msg, []⟩) := by
  constructor
  · intro h
    simp [vring_set_enable, h]
  · intro hidx heq
    have hlt : msg.vring_state_index < v.vrings.length := lt_of_lt_of_le hidx hlen
    have heq' : (v.vrings[msg.vring_state_index]?.getD default).is_enabled
        = decide (msg.vring_state_num = 1) := by
      rw [← List.getD_eq_getElem?_getD]; exact heq
    have hnoop : vring_set_enable (v.vrings[msg.vring_state_index]?.getD default)
        (decide (msg.vring_state_num = 1)) env.attach_res env.event_res
        = (0, v.vrings[msg.vring_state_index]?.getD default, []) := by
      simp [vring_set_enable, heq']
    have hset : v.vrings.set msg.vring_state_index
        (v.vrings[msg.vring_state_index]?.getD default) = v.vrings := by
      rw [← List.getD_eq_getElem?_getD]; exact set_getD_self _ _ _ hlt
    simp only [vhost_set_vring_enable, if_neg (Nat.not_le.mpr hidx)]
    simp [hnoop, hset]

/-- Witness for C10: a disabled vring asked to disable again via
`SET_VRING_ENABLE(0, 0)` leaves the concrete vdev unchanged. -/
theorem vring_set_enable_idempotent_witness :
    vhost_set_vring_enable okEnv baseVdev
      ({ baseMsg with req := VhostUserReq.SET_VRING_ENABLE })
      = ⟨0, baseVdev, { baseMsg with req := VhostUserReq.SET_VRING_ENABLE }, []⟩ :=
  (vring_set_enable_idempotent default false 0 0 okEnv baseVdev
      ({ baseMsg with req := VhostUserReq.SET_VRING_ENABLE }) (by decide)).2
    (by decide) (by decide)

/-- C6: `map_guest_region` fails with EINVAL (touching nothing) when the index
is out of range or the size or offset is not page-aligned; with valid
arguments and an occupied target slot it closes the incoming fd, keeps the
existing mapping and succeeds when the incoming `(gpa, pages)` pair equals the
stored one, and fails with EBUSY (slot unchanged) otherwise. -/
theorem map_guest_region_validation (memmap : List GuestMemoryRegion)
    (index : Nat) (ga ua size offset : Nat) (fd : Int) (mr : Option Nat)
    (me : Int) :
    (VHOST_USER_MEM_REGIONS_MAX ≤ index ∨ size % PAGE_SIZE ≠ 0 ∨
        offset % PAGE_SIZE ≠ 0 →
      map_guest_region memmap index ga ua size offset fd mr me
        = (EINVAL, memmap, [])) ∧
    (index < VHOST_USER_MEM_REGIONS_MAX → size % PAGE_SIZE = 0 →
     offset % PAGE_SIZE = 0 →
     (memmap.getD index zeroRegion).hva.isSome = true →
      ((memmap.getD index zeroRegion).gpa = ga ∧
       (memmap.getD index zeroRegion).pages = (size / 2 ^ PAGE_SHIFT) % U32 →
         map_guest_region memmap index ga ua size offset fd mr me
           = (0, memmap, [Eff.closeFd fd])) ∧
      (¬((memmap.getD index zeroRegion).gpa = ga ∧
         (memmap.getD index zeroRegion).pages = (size / 2 ^ PAGE_SHIFT) % U32) →
         map_guest_region memmap index ga ua size offset fd mr me
           = (EBUSY, memmap, []))) := by
  constructor
  · intro h
    rcases h with h | h | h
    · simp [map_guest_region, h]
    · simp [map_guest_region, h]
    · simp [map_guest_region, h]
  · intro hidx hsz hoff hsome
    simp only [List.getD_eq_getElem?_getD] at hsome
    constructor
    · intro hpair
      simp only [List.getD_eq_getElem?_getD] at hpair
      simp [map_guest_region, Nat.not_le.mpr hidx, hsz, hoff, hsome, hpair.1,
        hpair.2]
    · intro hpair
      simp only [List.getD_eq_getElem?_getD] at hpair
      simp [map_guest_region, Nat.not_le.mpr hidx, hsz, hoff, hsome, hpair]

/-- A one-slot-occupied memory map used by the concrete instances below. -/
def c6Map : List GuestMemoryRegion :=
  ({ gpa := 0, uva := 0, hva := some 1048576, pages := 1, fd := 3 } :
      GuestMemoryRegion) :: List.replicate 7 zeroRegion

/-- Witness for C6: remapping slot 0 with the identical `(gpa, pages)` pair
closes the duplicate fd and keeps the mapping. -/
theorem map_guest_region_validation_witness :
    map_guest_region c6Map 0 0 0 4096 0 9 (some 777) 12
      = (0, c6Map, [Eff.closeFd 9]) :=
  ((map_guest_region_validation c6Map 0 0 0 4096 0 9 (some 777) 12).2
      (by decide) (by decide) (by decide) (by decide)).1 (by decide)

/-- The vdev with vring `idx` updated to hold kick fd `fd` and nothing else
changed (what a modern-client `SET_VRING_KICK` leaves behind). -/
def kick_stored (v : VhdVdev) (idx : Nat) (fd : Int) : VhdVdev :=
  { v with vrings := v.vrings.set idx ({ v.vrings.getD idx default with kickfd := fd }) }

/-- C7: `SET_VRING_KICK` (with a transferred fd and a valid index) stores the
fd as the vring's kick fd; when `VHOST_USER_F_PROTOCOL_FEATURES` was not
negotiated the vring is enabled immediately (given the attach calls succeed),
and when it was negotiated the handler changes nothing but the kick fd — the
vring stays disabled — and a subsequent `SET_VRING_ENABLE(1)` is what enables
it. -/
theorem set_vring_kick_enable_policy (env : Env) (v : VhdVdev)
    (msg : VhostUserMsg) (fds : List Int)
    (hfd : msg.u64 &&& VHOST_VRING_INVALID_FD = 0)
    (hidx : msg.u64 &&& VHOST_VRING_IDX_MASK < v.num_queues)
    (hlen : v.num_queues ≤ v.vrings.length) :
    ((vhost_set_vring_kick env v msg fds).vdev.vrings.getD
        (msg.u64 &&& VHOST_VRING_IDX_MASK) default).kickfd = fds.getD 0 0 ∧
    (has_feature v.negotiated_features VHOST_USER_F_PROTOCOL_FEATURES = false →
     env.attach_res = 0 → env.event_res = 0 →
     ((vhost_set_vring_kick env v msg fds).vdev.vrings.getD
         (msg.u64 &&& VHOST_VRING_IDX_MASK) default).is_enabled = true ∧
     (vhost_set_vring_kick env v msg fds).ret = 0) ∧
    (has_feature v.negotiated_features VHOST_USER_F_PROTOCOL_FEATURES = true →
     (vhost_set_vring_kick env v msg fds).vdev
        = kick_stored v (msg.u64 &&& VHOST_VRING_IDX_MASK) (fds.getD 0 0) ∧
     (vhost_set_vring_kick env v msg fds).ret = 0 ∧
     ((vhost_set_vring_kick env v msg fds).vdev.vrings.getD
         (msg.u64 &&& VHOST_VRING_IDX_MASK) default).is_enabled
        = (v.vrings.getD (msg.u64 &&& VHOST_VRING_IDX_MASK) default).is_enabled ∧
     (∀ msg2 : VhostUserMsg,
        msg2.vring_state_index = msg.u64 &&& VHOST_VRING_IDX_MASK →
        msg2.vring_state_num = 1 →
        (v.vrings.getD (msg.u64 &&& VHOST_VRING_IDX_MASK) default).is_enabled = false →
        env.attach_res = 0 → env.event_res = 0 →
        ((vhost_set_vring_enable env (vhost_set_vring_kick env v msg fds).vdev
            msg2).vdev.vrings.getD (msg.u64 &&& VHOST_VRING_IDX_MASK) default).is_enabled
          = true)) := by
  have hlt : msg.u64 &&& VHOST_VRING_IDX_MASK < v.vrings.length :=
    lt_of_lt_of_le hidx hlen
  by_cases hf : has_feature v.negotiated_features VHOST_USER_F_PROTOCOL_FEATURES
  · -- modern clients: just store the fd
    have hk : vhost_set_vring_kick env v msg fds
        = ⟨0, kick_stored v (msg.u64 &&& VHOST_VRING_IDX_MASK) (fds.getD 0 0),
            msg, []⟩ := by
      simp [vhost_set_vring_kick, vhost_set_vring_fd_common, hfd,
        Nat.not_le.mpr hidx, hf, kick_stored, List.getD_eq_getElem?_getD]
    refine ⟨?_, ?_, ?_⟩
    · rw [hk]
      simp [kick_stored, getD_set_eq', hlt]
    · intro hfeat
      rw [hf] at hfeat
      exact absurd hfeat (by simp)
    · intro _
      refine ⟨by rw [hk], by rw [hk], ?_, ?_⟩
      · rw [hk]
        simp [kick_stored, getD_set_eq', hlt]
      · intro msg2 h2i h2n hdis ha he
        simp only [List.getD_eq_getElem?_getD] at hdis
        have hdis2 : (v.vrings[msg.u64 &&& VHOST_VRING_IDX_MASK]).is_enabled
            = false := by
          rw [List.getElem?_eq_getElem hlt] at hdis
          simpa using hdis
        rw [hk]
        simp [vhost_set_vring_enable, kick_stored, h2i, Nat.not_le.mpr hidx,
          h2n, vring_set_enable, getD_set_eq', hlt, hdis, hdis2, ha, he]
  · -- legacy clients: enable immediately
    refine ⟨?_, ?_, ?_⟩
    · by_cases hen : (v.vrings.getD (msg.u64 &&& VHOST_VRING_IDX_MASK) default).is_enabled
      · simp only [List.getD_eq_getElem?_getD, List.getElem?_eq_getElem hlt,
          Option.getD_some] at hen
        simp [vhost_set_vring_kick, vhost_set_vring_fd_common, hfd,
          Nat.not_le.mpr hidx, hf, vring_set_enable, hen,
          getD_set_eq', hlt]
      · simp only [List.getD_eq_getElem?_getD, List.getElem?_eq_getElem hlt,
          Option.getD_some] at hen
        simp only [vhost_set_vring_kick, vhost_set_vring_fd_common, hfd,
          Nat.not_le.mpr hidx, hf, vring_set_enable]
        by_cases ha : env.attach_res = 0 <;>
          by_cases he : env.event_res = 0 <;>
            simp [ha, he, hen, Nat.not_le.mpr hidx, hfd,
              getD_set_eq', hlt]
    · intro _ ha he
      by_cases hen : (v.vrings.getD (msg.u64 &&& VHOST_VRING_IDX_MASK) default).is_enabled
      · simp only [List.getD_eq_getElem?_getD, List.getElem?_eq_getElem hlt,
          Option.getD_some] at hen
        simp [vhost_set_vring_kick, vhost_set_vring_fd_common, hfd,
          Nat.not_le.mpr hidx, hf, vring_set_enable, hen,
          getD_set_eq', hlt]
      · simp only [List.getD_eq_getElem?_getD, List.getElem?_eq_getElem hlt,
          Option.getD_some] at hen
        simp [vhost_set_vring_kick, vhost_set_vring_fd_common, hfd,
          Nat.not_le.mpr hidx, hf, vring_set_enable, hen, ha, he,
          getD_set_eq', hlt]
    · intro hfeat
      rw [hfeat] at hf
      exact absurd rfl hf

/-- A concrete `SET_VRING_KICK` message for vring 0 with a transferred fd. -/
def c7Msg : VhostUserMsg := { baseMsg with req := VhostUserReq.SET_VRING_KICK }

/-- Witness for C7: on a legacy client (no `F_PROTOCOL_FEATURES`) the kick
message enables vring 0 immediately. -/
theorem set_vring_kick_enable_policy_witness :
    ((vhost_set_vring_kick okEnv baseVdev c7Msg [5]).vdev.vrings.getD 0
        default).is_enabled = true ∧
    (vhost_set_vring_kick okEnv baseVdev c7Msg [5]).ret = 0 :=
  (set_vring_kick_enable_policy okEnv baseVdev c7Msg [5] (by decide) (by decide)
      (by decide)).2.1 (by decide) rfl rfl

/-- C8: `SET_VRING_NUM`, `SET_VRING_BASE` and `SET_VRING_ADDR` fail with
EINVAL — returning the vdev (and so every `client_info`) unchanged — when the
indexed vring is out of range or enabled; `SET_VRING_ADDR` additionally fails
with EINVAL unless all three of the desc/used/avail addresses translate via
`map_uva`; on success the handlers store the number, the base, resp. the three
translated host addresses into the vring's `client_info`. -/
theorem set_vring_num_base_addr_validation (v : VhdVdev) (msg : VhostUserMsg)
    (hlen : v.num_queues ≤ v.vrings.length) :
    ((v.num_queues ≤ msg.vring_state_index ∨
        (v.vrings.getD msg.vring_state_index default).is_enabled = true) →
       vhost_set_vring_num v msg = ⟨EINVAL, v, msg, []⟩ ∧
       vhost_set_vring_base v msg = ⟨EINVAL, v, msg, []⟩) ∧
    ((v.num_queues ≤ msg.vring_addr_index ∨
        (v.vrings.getD msg.vring_addr_index default).is_enabled = true) →
       vhost_set_vring_addr v msg = ⟨EINVAL, v, msg, []⟩) ∧
    (msg.vring_addr_index < v.num_queues →
     (v.vrings.getD msg.vring_addr_index default).is_enabled = false →
     (map_uva v.guest_memmap msg.vring_addr_desc = none ∨
      map_uva v.guest_memmap msg.vring_addr_used = none ∨
      map_uva v.guest_memmap msg.vring_addr_avail = none) →
       vhost_set_vring_addr v msg = ⟨EINVAL, v, msg, []⟩) ∧
    (msg.vring_state_index < v.num_queues →
     (v.vrings.getD msg.vring_state_index default).is_enabled = false →
       (vhost_set_vring_num v msg).ret = 0 ∧
       ((vhost_set_vring_num v msg).vdev.vrings.getD msg.vring_state_index
           default).client_info
         = { (v.vrings.getD msg.vring_state_index default).client_info with
             num := msg.vring_state_num } ∧
       (vhost_set_vring_base v msg).ret = 0 ∧
       ((vhost_set_vring_base v msg).vdev.vrings.getD msg.vring_state_index
           default).client_info
         = { (v.vrings.getD msg.vring_state_index default).client_info with
             base := msg.vring_state_num }) ∧
    (msg.vring_addr_index < v.num_queues →
     (v.vrings.getD msg.vring_addr_index default).is_enabled = false →
     map_uva v.guest_memmap msg.vring_addr_desc ≠ none →
     map_uva v.guest_memmap msg.vring_addr_used ≠ none →
     map_uva v.guest_memmap msg.vring_addr_avail ≠ none →
       (vhost_set_vring_addr v msg).ret = 0 ∧
       ((vhost_set_vring_addr v msg).vdev.vrings.getD msg.vring_addr_index
           default).client_info
         = { (v.vrings.getD msg.vring_addr_index default).client_info with
             desc_addr := map_uva v.guest_memmap msg.vring_addr_desc,
             used_addr := map_uva v.guest_memmap msg.vring_addr_used,
             avail_addr := map_uva v.guest_memmap msg.vring_addr_avail }) := by
  refine ⟨?_, ?_, ?_, ?_, ?_⟩
  · intro h
    by_cases hr : v.num_queues ≤ msg.vring_state_index
    · constructor <;> simp [vhost_set_vring_num, vhost_set_vring_base, hr]
    · have hlt : msg.vring_state_index < v.vrings.length :=
        lt_of_lt_of_le (Nat.not_le.mp hr) hlen
      rcases h with h | h
      · exact absurd h hr
      · simp only [List.getD_eq_getElem?_getD, List.getElem?_eq_getElem hlt,
          Option.getD_some] at h
        constructor <;> simp [vhost_set_vring_num, vhost_set_vring_base, hr, h,
          List.getElem?_eq_getElem hlt]
  · intro h
    by_cases hr : v.num_queues ≤ msg.vring_addr_index
    · simp [vhost_set_vring_addr, hr]
    · have hlt : msg.vring_addr_index < v.vrings.length :=
        lt_of_lt_of_le (Nat.not_le.mp hr) hlen
      rcases h with h | h
      · exact absurd h hr
      · simp only [List.getD_eq_getElem?_getD, List.getElem?_eq_getElem hlt,
          Option.getD_some] at h
        simp [vhost_set_vring_addr, hr, h, List.getElem?_eq_getElem hlt]
  · intro hidx hen htr
    have hlt : msg.vring_addr_index < v.vrings.length := lt_of_lt_of_le hidx hlen
    simp only [List.getD_eq_getElem?_getD, List.getElem?_eq_getElem hlt,
      Option.getD_some] at hen
    have hne : ¬(map_uva v.guest_memmap msg.vring_addr_desc ≠ none ∧
        map_uva v.guest_memmap msg.vring_addr_used ≠ none ∧
        map_uva v.guest_memmap msg.vring_addr_avail ≠ none) := by
      rcases htr with h | h | h <;> simp [h]
    simp only [vhost_set_vring_addr, if_neg (Nat.not_le.mpr hidx),
      List.getElem?_eq_getElem hlt, Option.getD_some, hen, Bool.false_eq_true,
      if_false]
    rcases htr with h | h | h <;> simp [h]
  · intro hidx hen
    have hlt : msg.vring_state_index < v.vrings.length := lt_of_lt_of_le hidx hlen
    simp only [List.getD_eq_getElem?_getD, List.getElem?_eq_getElem hlt,
      Option.getD_some] at hen
    refine ⟨?_, ?_, ?_, ?_⟩ <;>
      simp [vhost_set_vring_num, vhost_set_vring_base, Nat.not_le.mpr hidx,
        hen, getD_set_eq', hlt, List.getElem?_eq_getElem hlt]
  · intro hidx hen hd hu ha
    have hlt : msg.vring_addr_index < v.vrings.length := lt_of_lt_of_le hidx hlen
    simp only [List.getD_eq_getElem?_getD, List.getElem?_eq_getElem hlt,
      Option.getD_some] at hen
    constructor <;>
      simp [vhost_set_vring_addr, Nat.not_le.mpr hidx, hen, hd, hu, ha,
        getD_set_eq', hlt, List.getElem?_eq_getElem hlt]

/-- A concrete `SET_VRING_NUM` message for vring 0. -/
def c8Msg : VhostUserMsg :=
  { baseMsg with req := VhostUserReq.SET_VRING_NUM, vring_state_num := 256 }

/-- Witness for C8: `SET_VRING_NUM` on a valid disabled vring succeeds. -/
theorem set_vring_num_base_addr_validation_witness :
    (vhost_set_vring_num baseVdev c8Msg).ret = 0 :=
  ((set_vring_num_base_addr_validation baseVdev c8Msg (by decide)).2.2.2.1
      (by decide) (by decide)).1

/-- A concrete `GET_INFLIGHT_FD` request for 2 queues of 4 descriptors. -/
def c9Msg : VhostUserMsg :=
  { baseMsg with
    req := VhostUserReq.GET_INFLIGHT_FD
    inflight_num_queues := 2
    inflight_queue_size := 4 }

/-- C9: a `GET_INFLIGHT_FD(queue_size, num_queues)` whose external calls all
succeed first releases any prior inflight region, creates a region of total
size `(sizeof(inflight_split_region) + queue_size * sizeof(inflight_split_desc))
* num_queues`, zeroes it, writes into each of the `num_queues` per-queue
sub-regions a header with `features = 0`, `version = 1`,
`desc_num = queue_size`, `last_batch_head = 0`, `used_idx = 0`, and replies
with `mmap_size = total`, `mmap_offset = 0` and the new fd. -/
theorem get_inflight_fd_success (env : Env) (v : VhdVdev) (msg : VhostUserMsg)
    (fd : Int) (hmf : env.memfd = some fd) (hft : env.ftruncate_res = 0)
    (hmm : env.inflight_mmap.isSome = true) (hsend : env.reply_res = 0) :
    (vhost_get_inflight_fd env v msg).ret = 0 ∧
    (vhost_get_inflight_fd env v msg).vdev.inflightfd = fd ∧
    (vhost_get_inflight_fd env v msg).vdev.inflight_size
      = (INFLIGHT_SPLIT_REGION_SIZE +
          msg.inflight_queue_size * INFLIGHT_SPLIT_DESC_SIZE)
        * msg.inflight_num_queues ∧
    (vhost_get_inflight_fd env v msg).vdev.inflight_mem
      = some (List.replicate msg.inflight_num_queues
          { features := 0, version := 1, desc_num := msg.inflight_queue_size,
            last_batch_head := 0, used_idx := 0,
            descs := List.replicate msg.inflight_queue_size 0 }) ∧
    Eff.sendMsg (Reply.inflight
        ((INFLIGHT_SPLIT_REGION_SIZE +
            msg.inflight_queue_size * INFLIGHT_SPLIT_DESC_SIZE)
          * msg.inflight_num_queues) 0 fd)
      ∈ (vhost_get_inflight_fd env v msg).effs ∧
    (vhost_get_inflight_fd env v msg).msg.inflight_mmap_size
      = (INFLIGHT_SPLIT_REGION_SIZE +
          msg.inflight_queue_size * INFLIGHT_SPLIT_DESC_SIZE)
        * msg.inflight_num_queues ∧
    (vhost_get_inflight_fd env v msg).msg.inflight_mmap_offset = 0 ∧
    (v.inflightfd ≠ -1 →
      Eff.closeFd v.inflightfd ∈ (vhost_get_inflight_fd env v msg).effs ∧
      Eff.munmapInflight ∈ (vhost_get_inflight_fd env v msg).effs) := by
  obtain ⟨a, hma⟩ := Option.isSome_iff_exists.mp hmm
  have hbuf : (List.replicate msg.inflight_num_queues
        (zeroInflightRegion msg.inflight_queue_size)).map
        (inflight_split_region_init msg.inflight_queue_size)
      = List.replicate msg.inflight_num_queues
          { features := 0, version := 1, desc_num := msg.inflight_queue_size,
            last_batch_head := 0, used_idx := 0,
            descs := List.replicate msg.inflight_queue_size 0 } := by
    rw [List.map_replicate]
    rfl
  by_cases hprev : v.inflightfd = -1 <;>
    simp [vhost_get_inflight_fd, vhd_vdev_inflight_cleanup, hprev, hmf, hft,
      hma, hsend, vring_inflight_buf_size, hbuf]

/-- Witness for C9 at the concrete request `c9Msg` (2 queues of 4 entries:
total size 160 bytes). -/
theorem get_inflight_fd_success_witness :
    (vhost_get_inflight_fd okEnv baseVdev c9Msg).ret = 0 ∧
    (vhost_get_inflight_fd okEnv baseVdev c9Msg).vdev.inflight_size = 160 := by
  have h := get_inflight_fd_success okEnv baseVdev c9Msg 7 rfl rfl rfl rfl
  refine ⟨h.1, ?_⟩
  have h2 := h.2.2.1
  simpa [c9Msg, baseMsg, INFLIGHT_SPLIT_REGION_SIZE,
    INFLIGHT_SPLIT_DESC_SIZE] using h2

/-- A memory map whose regions overlap in GPA space (reachable, since
`map_guest_region` never checks GPA overlap): region 0 covers one page at GPA
0, region 1 covers two pages at GPA 0. -/
def c4Map : List GuestMemoryRegion :=
  ({ gpa := 0, uva := 0, hva := some 1048576, pages := 1, fd := 3 } :
      GuestMemoryRegion) ::
  ({ gpa := 0, uva := 65536, hva := some 2097152, pages := 2, fd := 4 } :
      GuestMemoryRegion) :: List.replicate 6 zeroRegion

/-- C4 counterexample: for `(gpa, len) = (0, 8192)` on `c4Map`, region 1 fully
contains `[0, 8192)` — so the claimed iff demands a non-null result — but
`map_gpa_len` returns null, because the scan stops at region 0, the first
region containing `gpa`, and only checks containment there. -/
theorem map_gpa_len_overlap_counterexample :
    map_gpa_len c4Map 0 8192 = none ∧
    some_region_fully_contains c4Map 0 8192 = true := by
  decide

/-- Helper for C4: with in-range `uint64` gpa, `uint32` len and `uint32` page
counts, the scan of `map_gpa_len` computes exactly: find the first mapped
region containing `gpa` and return its translation iff the whole range fits in
that region (the mod-`2^64` arithmetic of `gpa + len - 1` and of the unsigned
subtraction cancels out under these bounds). -/
theorem map_gpa_len_go_eq (gpa len : Nat) (h64 : gpa < U64) (h32 : len < U32)
    (hlen : 0 < len) :
    ∀ m : List GuestMemoryRegion, (∀ r ∈ m, r.pages < U32) →
    map_gpa_len_go gpa ((gpa + len - 1) % U64) m =
      (match m.find? (fun r => region_covers_gpa r gpa) with
       | none => none
       | some r =>
          if gpa + len ≤ r.gpa + region_size_bytes r then
            some (r.hva.getD 0 + (gpa - r.gpa))
          else none) := by
  intro m
  induction m with
  | nil => intro _; simp [map_gpa_len_go]
  | cons r rest ih =>
      intro hp
      by_cases hc : region_covers_gpa r gpa = true
      · obtain ⟨⟨hmap, h1⟩, h2⟩ : (is_region_mapped r = true ∧ r.gpa ≤ gpa) ∧
            gpa - r.gpa < region_size_bytes r := by
          simpa [region_covers_gpa, Bool.and_eq_true, decide_eq_true_eq] using hc
        rw [show List.find? (fun x => region_covers_gpa x gpa) (r :: rest)
              = some r from by simp [List.find?_cons, hc]]
        have hpr : r.pages < U32 := hp r (List.mem_cons_self r rest)
        have key : ((gpa + len - 1) % U64 + U64 - r.gpa) % U64
            = gpa - r.gpa + (len - 1) := by
          simp only [region_size_bytes, U64, U32, PAGE_SIZE] at h64 h32 hpr h1 h2 ⊢
          omega
        have hcond : is_region_mapped r = true ∧ r.gpa ≤ gpa ∧
            gpa - r.gpa < region_size_bytes r := ⟨hmap, h1, h2⟩
        simp only [map_gpa_len_go, if_pos hcond, key]
        by_cases hfit : gpa + len ≤ r.gpa + region_size_bytes r
        · have hno : ¬(region_size_bytes r ≤ gpa - r.gpa + (len - 1)) := by
            simp only [region_size_bytes, PAGE_SIZE] at hfit h2 h1 ⊢
            omega
          rw [if_neg hno, if_pos hfit]
        · have hyes : region_size_bytes r ≤ gpa - r.gpa + (len - 1) := by
            simp only [region_size_bytes, PAGE_SIZE] at hfit h2 h1 ⊢
            omega
          rw [if_pos hyes, if_neg hfit]
      · have hcf : region_covers_gpa r gpa = false := by simpa using hc
        rw [show List.find? (fun x => region_covers_gpa x gpa) (r :: rest)
              = List.find? (fun x => region_covers_gpa x gpa) rest from by
            simp [List.find?_cons, hcf]]
        have hnot : ¬(is_region_mapped r = true ∧ r.gpa ≤ gpa ∧
            gpa - r.gpa < region_size_bytes r) := by
          intro hcon
          exact hc (by simp [region_covers_gpa, hcon.1, hcon.2.1, hcon.2.2])
        simp only [map_gpa_len_go, if_neg hnot]
        exact ih (fun r' hr' => hp r' (List.mem_cons_of_mem r hr'))

/-- C4 (amended): `map_gpa_len` returns null for `len = 0`, and for `len > 0`
it looks at the *first* (lowest-indexed) mapped region containing `gpa`:
the result is non-null iff that region fully contains `[gpa, gpa+len)`, and on
success it is that region's hva plus `gpa - region.gpa` — later regions are
never consulted (hypotheses are the C integer ranges: `gpa` a `uint64`,
`len` a `uint32`, page counts `uint32`). -/
theorem map_gpa_len_first_region_characterization
    (m : List GuestMemoryRegion) (gpa len : Nat)
    (h64 : gpa < U64) (h32 : len < U32) (hp : ∀ r ∈ m, r.pages < U32) :
    (len = 0 → map_gpa_len m gpa len = none) ∧
    (0 < len → map_gpa_len m gpa len =
      (match m.find? (fun r => region_covers_gpa r gpa) with
       | none => none
       | some r =>
          if gpa + len ≤ r.gpa + region_size_bytes r then
            some (r.hva.getD 0 + (gpa - r.gpa))
          else none)) := by
  constructor
  · intro h
    simp [map_gpa_len, h]
  · intro h
    rw [map_gpa_len, if_neg (by omega)]
    exact map_gpa_len_go_eq gpa len h64 h32 h m hp

/-- Witness for C4 (amended): on `c4Map` the range `[0, 4096)` translates
through the first region to hva `1048576`. -/
theorem map_gpa_len_first_region_characterization_witness :
    map_gpa_len c4Map 0 4096 = some 1048576 := by
  have h := (map_gpa_len_first_region_characterization c4Map 0 4096
    (by decide) (by decide) (by decide)).2 (by decide)
  rw [h]
  decide

/-- Helper for C5: every slot coming out of `unmap_all` is dead. -/
theorem unmap_all_dead (m : List GuestMemoryRegion) :
    ∀ r ∈ (vhd_guest_memory_unmap_all m).1, r.hva = none := by
  induction m with
  | nil => simp [vhd_guest_memory_unmap_all]
  | cons r rest ih =>
      intro r' hr'
      simp only [vhd_guest_memory_unmap_all] at hr'
      rcases List.mem_cons.mp hr' with h | h
      · subst h
        by_cases hm : is_region_mapped r
        · simp [unmap_guest_region, hm, zeroRegion]
        · simp only [unmap_guest_region, hm, if_false, ite_false]
          exact Option.not_isSome_iff_eq_none.mp (by simpa [is_region_mapped] using hm)
      · exact ih r' h

/-- Helper for C5: a successful `map_guest_region` grows no list, touches only
its own slot, and leaves that slot live. -/
theorem map_guest_region_success_frame (memmap : List GuestMemoryRegion)
    (index : Nat) (ga ua size offset : Nat) (fd : Int) (mr : Option Nat)
    (me : Int) (hme : me ≠ 0)
    (h0 : (map_guest_region memmap index ga ua size offset fd mr me).1 = 0) :
    (map_guest_region memmap index ga ua size offset fd mr me).2.1.length
        = memmap.length ∧
    (∀ k, k ≠ index →
      (map_guest_region memmap index ga ua size offset fd mr me).2.1.getD k
          zeroRegion = memmap.getD k zeroRegion) ∧
    (index < memmap.length →
      ((map_guest_region memmap index ga ua size offset fd mr me).2.1.getD
          index zeroRegion).hva.isSome = true) := by
  by_cases hA : VHOST_USER_MEM_REGIONS_MAX ≤ index
  · simp [map_guest_region, hA, EINVAL] at h0
  by_cases hB : size % PAGE_SIZE = 0
  swap
  · simp [map_guest_region, hA, hB, EINVAL] at h0
  by_cases hC : offset % PAGE_SIZE = 0
  swap
  · simp [map_guest_region, hA, hB, hC, EINVAL] at h0
  by_cases hocc : (memmap.getD index zeroRegion).hva.isSome = true
  · simp only [List.getD_eq_getElem?_getD] at hocc
    by_cases hpair : (memmap.getD index zeroRegion).gpa = ga ∧
        (memmap.getD index zeroRegion).pages = (size / 2 ^ PAGE_SHIFT) % U32
    · simp only [List.getD_eq_getElem?_getD] at hpair
      simp [map_guest_region, hA, hB, hC, hocc, hpair,
        List.getD_eq_getElem?_getD]
    · simp only [List.getD_eq_getElem?_getD] at hpair
      simp [map_guest_region, hA, hB, hC, hocc, hpair, EBUSY,
        List.getD_eq_getElem?_getD] at h0
  · simp only [List.getD_eq_getElem?_getD] at hocc
    cases mr with
    | none => simp [map_guest_region, hA, hB, hC, hocc] at h0; exact absurd h0 hme
    | some a =>
        refine ⟨?_, ?_, ?_⟩
        · simp [map_guest_region, hA, hB, hC, hocc]
        · intro k hk
          simp [map_guest_region, hA, hB, hC, hocc,
            List.getD_eq_getElem?_getD, getD_set_ne' _ _ _ _ _ (fun h => hk h.symm)]
        · intro hlt
          have hocc2 : memmap[index].hva.isSome = false := by
            rw [List.getElem?_eq_getElem hlt] at hocc
            simpa using hocc
          simp [map_guest_region, hA, hB, hC, hocc, hocc2,
            List.getD_eq_getElem?_getD, getD_set_eq', hlt]

/-- Helper for C5: a fully successful `SET_MEM_TABLE` loop starting at `i`
with `n` remaining regions preserves the table length, leaves every slot
outside `[i, i+n)` unchanged, and leaves every slot in `[i, i+n)` live. -/
theorem set_mem_table_loop_success (mmapf : Nat → Option Nat) (me : Int)
    (desc : VhostUserMemDesc) (fds : List Int) (hme : me ≠ 0) :
    ∀ (n i : Nat) (memmap : List GuestMemoryRegion),
      (set_mem_table_loop mmapf me desc fds memmap i n).1 = 0 →
      ((set_mem_table_loop mmapf me desc fds memmap i n).2.1.length
          = memmap.length ∧
       (∀ k, k < i ∨ i + n ≤ k →
         (set_mem_table_loop mmapf me desc fds memmap i n).2.1.getD k zeroRegion
           = memmap.getD k zeroRegion) ∧
       (∀ k, i ≤ k → k < i + n → k < memmap.length →
         ((set_mem_table_loop mmapf me desc fds memmap i n).2.1.getD k
             zeroRegion).hva.isSome = true)) := by
  intro n
  induction n with
  | zero =>
      intro i memmap _
      exact ⟨rfl, fun k _ => rfl, fun k h1 h2 _ => by omega⟩
  | succ n ih =>
      intro i memmap h0
      rcases hmg : map_guest_region memmap i
          (desc.regions.getD i default).guest_addr
          (desc.regions.getD i default).user_addr
          (desc.regions.getD i default).size
          (desc.regions.getD i default).mmap_offset
          (fds.getD i 0) (mmapf i) me with ⟨err, rest⟩
      rcases rest with ⟨memmap', effs⟩
      simp only [set_mem_table_loop, hmg] at h0 ⊢
      by_cases herr : err = 0
      · simp only [herr, ne_eq, not_true_eq_false, if_false, ite_false,
          not_false_eq_true] at h0 ⊢
        rcases hrec : set_mem_table_loop mmapf me desc fds memmap' (i + 1) n
          with ⟨r2, rest2⟩
        rcases rest2 with ⟨m2, e2⟩
        simp only [hrec] at h0 ⊢
        have hr2 : r2 = 0 := h0
        have hrecp := ih (i + 1) memmap' (by rw [hrec]; exact hr2)
        rw [hrec] at hrecp
        have hframe := map_guest_region_success_frame memmap i
          (desc.regions.getD i default).guest_addr
          (desc.regions.getD i default).user_addr
          (desc.regions.getD i default).size
          (desc.regions.getD i default).mmap_offset
          (fds.getD i 0) (mmapf i) me hme (by rw [hmg]; exact herr)
        rw [hmg] at hframe
        refine ⟨?_, ?_, ?_⟩
        · exact hrecp.1.trans hframe.1
        · intro k hk
          have h1 : m2.getD k zeroRegion = memmap'.getD k zeroRegion :=
            hrecp.2.1 k (by omega)
          have h2 : memmap'.getD k zeroRegion = memmap.getD k zeroRegion :=
            hframe.2.1 k (by omega)
          exact h1.trans h2
        · intro k hk1 hk2 hk3
          by_cases hki : k = i
          · subst hki
            have h1 : m2.getD k zeroRegion = memmap'.getD k zeroRegion :=
              hrecp.2.1 k (by omega)
            rw [h1]
            exact hframe.2.2 hk3
          · exact hrecp.2.2 k (by omega) (by omega) (by rw [hframe.1]; exact hk3)
      · simp only [herr, ne_eq, not_false_eq_true, if_true, ite_true] at h0

/-- Helper for C5: a failing `SET_MEM_TABLE` loop rolls back to a table with
no live slot and closes all the passed fds from the failing index to the end
of the described range. -/
theorem set_mem_table_loop_failure (mmapf : Nat → Option Nat) (me : Int)
    (desc : VhostUserMemDesc) (fds : List Int) :
    ∀ (n i : Nat) (memmap : List GuestMemoryRegion),
      (set_mem_table_loop mmapf me desc fds memmap i n).1 ≠ 0 →
      ((∀ r ∈ (set_mem_table_loop mmapf me desc fds memmap i n).2.1,
          r.hva = none) ∧
       ∃ j, i ≤ j ∧ j < i + n ∧ ∀ k, j ≤ k → k < i + n →
         Eff.closeFd (fds.getD k 0)
           ∈ (set_mem_table_loop mmapf me desc fds memmap i n).2.2) := by
  intro n
  induction n with
  | zero =>
      intro i memmap h0
      exact absurd rfl h0
  | succ n ih =>
      intro i memmap h0
      rcases hmg : map_guest_region memmap i
          (desc.regions.getD i default).guest_addr
          (desc.regions.getD i default).user_addr
          (desc.regions.getD i default).size
          (desc.regions.getD i default).mmap_offset
          (fds.getD i 0) (mmapf i) me with ⟨err, rest⟩
      rcases rest with ⟨memmap', effs⟩
      simp only [set_mem_table_loop, hmg] at h0 ⊢
      by_cases herr : err = 0
      · simp only [herr, ne_eq, not_true_eq_false, if_false, ite_false,
          not_false_eq_true] at h0 ⊢
        rcases hrec : set_mem_table_loop mmapf me desc fds memmap' (i + 1) n
          with ⟨r2, rest2⟩
        rcases rest2 with ⟨m2, e2⟩
        simp only [hrec] at h0 ⊢
        have hrecp := ih (i + 1) memmap' (by rw [hrec]; exact h0)
        rw [hrec] at hrecp
        refine ⟨hrecp.1, ?_⟩
        obtain ⟨j, hj1, hj2, hj3⟩ := hrecp.2
        refine ⟨j, by omega, by omega, ?_⟩
        intro k hk1 hk2
        simp only [List.mem_append]
        exact Or.inr (hj3 k hk1 (by omega))
      · simp only [herr, ne_eq, not_false_eq_true, if_true, ite_true] at h0 ⊢
        refine ⟨unmap_all_dead memmap', ?_⟩
        refine ⟨i, le_refl i, by omega, ?_⟩
        intro k hk1 hk2
        simp only [List.mem_append]
        refine Or.inl (Or.inr ?_)
        refine List.mem_map.mpr ⟨k - i, ?_, ?_⟩
        · exact List.mem_range.mpr (by omega)
        · rw [show i + (k - i) = k from by omega]

/-- C5 (amended): `SET_MEM_TABLE` rejects `nregions > MAX_MEM_REGIONS` with
EINVAL touching nothing; on any per-region failure it closes every passed fd
from the failing index onward and unmaps the whole table, leaving zero live
regions; on full success it leaves the first `nregions` slots live and every
slot from `nregions` on unchanged — so *exactly* the first `nregions` slots
are live when the table was empty beforehand, but pre-existing mappings in the
higher slots survive.  (`me ≠ 0` says a failing mmap reports a nonzero
errno.) -/
theorem set_mem_table_reject_rollback_success (mmapf : Nat → Option Nat)
    (me : Int) (desc : VhostUserMemDesc) (fds : List Int)
    (memmap : List GuestMemoryRegion) (hme : me ≠ 0)
    (hlen : memmap.length = VHOST_USER_MEM_REGIONS_MAX) :
    (VHOST_USER_MEM_REGIONS_MAX < desc.nregions →
       vhost_set_mem_table mmapf me desc fds memmap = (EINVAL, memmap, [])) ∧
    (desc.nregions ≤ VHOST_USER_MEM_REGIONS_MAX →
     (vhost_set_mem_table mmapf me desc fds memmap).1 ≠ 0 →
       ((∀ r ∈ (vhost_set_mem_table mmapf me desc fds memmap).2.1,
           r.hva = none) ∧
        ∃ j, j < desc.nregions ∧ ∀ k, j ≤ k → k < desc.nregions →
          Eff.closeFd (fds.getD k 0)
            ∈ (vhost_set_mem_table mmapf me desc fds memmap).2.2)) ∧
    ((vhost_set_mem_table mmapf me desc fds memmap).1 = 0 →
       ((∀ i, i < desc.nregions →
          ((vhost_set_mem_table mmapf me desc fds memmap).2.1.getD i
              zeroRegion).hva.isSome = true) ∧
        (∀ i, desc.nregions ≤ i →
          (vhost_set_mem_table mmapf me desc fds memmap).2.1.getD i zeroRegion
            = memmap.getD i zeroRegion) ∧
        ((∀ r ∈ memmap, r.hva = none) →
          ∀ i, i < VHOST_USER_MEM_REGIONS_MAX →
            (((vhost_set_mem_table mmapf me desc fds memmap).2.1.getD i
                zeroRegion).hva.isSome = true ↔ i < desc.nregions)))) := by
  refine ⟨?_, ?_, ?_⟩
  · intro h
    simp [vhost_set_mem_table, h]
  · intro hn h0
    simp only [vhost_set_mem_table, if_neg (Nat.not_lt.mpr hn)] at h0 ⊢
    have hf := set_mem_table_loop_failure mmapf me desc fds desc.nregions 0
      memmap h0
    refine ⟨hf.1, ?_⟩
    obtain ⟨j, _, hj2, hj3⟩ := hf.2
    exact ⟨j, by omega, fun k hk1 hk2 => hj3 k hk1 (by omega)⟩
  · intro h0
    by_cases hn : VHOST_USER_MEM_REGIONS_MAX < desc.nregions
    · simp [vhost_set_mem_table, hn, EINVAL] at h0
    · simp only [vhost_set_mem_table, if_neg hn] at h0 ⊢
      have hs := set_mem_table_loop_success mmapf me desc fds hme
        desc.nregions 0 memmap h0
      refine ⟨?_, ?_, ?_⟩
      · intro i hi
        exact hs.2.2 i (by omega) (by omega) (by omega)
      · intro i hi
        exact hs.2.1 i (by omega)
      · intro hdead i hi8
        by_cases hi : i < desc.nregions
        · have h := hs.2.2 i (by omega) (by omega) (by omega)
          simpa [hi] using h
        · rw [hs.2.1 i (by omega)]
          constructor
          · intro hliv
            have : memmap.getD i zeroRegion ∈ memmap := by
              have hilen : i < memmap.length := by omega
              simp [List.getD_eq_getElem?_getD, List.getElem?_eq_getElem hilen]
            rw [hdead _ this] at hliv
            simp at hliv
          · intro h
            exact absurd h hi

/-- A table with a stale live mapping in slot 1 and slot 0 free. -/
def c5Map : List GuestMemoryRegion :=
  zeroRegion ::
  ({ gpa := 4096, uva := 0, hva := some 99, pages := 1, fd := 7 } :
      GuestMemoryRegion) :: List.replicate 6 zeroRegion

/-- A one-region `SET_MEM_TABLE` payload. -/
def c5Desc : VhostUserMemDesc :=
  { nregions := 1,
    regions := [{ guest_addr := 0, user_addr := 0, size := 4096,
                  mmap_offset := 0 }] }

/-- C5 counterexample: a fully successful `SET_MEM_TABLE` with `nregions = 1`
on a table that already had slot 1 mapped leaves slot 1 live as well, so it is
not the case that exactly the first `nregions` slots are live. -/
theorem set_mem_table_stale_slot_counterexample :
    (vhost_set_mem_table (fun _ => some 1000) 12 c5Desc [3] c5Map).1 = 0 ∧
    c5Desc.nregions = 1 ∧
    ((vhost_set_mem_table (fun _ => some 1000) 12 c5Desc [3] c5Map).2.1.getD 1
        zeroRegion).hva.isSome = true := by
  decide

/-- Witness for C5 (amended): from an empty table, a successful one-region
`SET_MEM_TABLE` leaves slot 0 live. -/
theorem set_mem_table_reject_rollback_success_witness :
    ((vhost_set_mem_table (fun _ => some 1000) 12 c5Desc [3]
        (List.replicate 8 zeroRegion)).2.1.getD 0 zeroRegion).hva.isSome
      = true :=
  ((set_mem_table_reject_rollback_success (fun _ => some 1000) 12 c5Desc [3]
      (List.replicate 8 zeroRegion) (by decide) (by decide)).2.2
    (by decide)).1 0 (by decide)

/-- The six opcodes whose handlers emit an explicit reply. -/
def isGetterReq : VhostUserReq → Bool
  | VhostUserReq.GET_FEATURES => true
  | VhostUserReq.GET_PROTOCOL_FEATURES => true
  | VhostUserReq.GET_CONFIG => true
  | VhostUserReq.GET_QUEUE_NUM => true
  | VhostUserReq.GET_VRING_BASE => true
  | VhostUserReq.GET_INFLIGHT_FD => true
  | _ => false

/-- No effect of the list is an ack send. -/
def noAckEffs (l : List Eff) : Bool := l.all fun e => !isAckEff e

/-- No effect of the list is an explicit-reply send. -/
def noReplyEffs (l : List Eff) : Bool := l.all fun e => !isReplyEff e

/-- Unpack `noAckEffs`. -/
theorem noAckEffs_mem {l : List Eff} (h : noAckEffs l = true) :
    ∀ e ∈ l, isAckEff e = false := by
  intro e he
  have := List.all_eq_true.mp h e he
  simpa using this

/-- Unpack `noReplyEffs`. -/
theorem noReplyEffs_mem {l : List Eff} (h : noReplyEffs l = true) :
    ∀ e ∈ l, isReplyEff e = false := by
  intro e he
  have := List.all_eq_true.mp h e he
  simpa using this

/-- `vring_set_enable` performs no sends. -/
theorem vring_set_enable_no_send (r : VhdVring) (b : Bool) (a ev : Int) :
    noAckEffs (vring_set_enable r b a ev).2.2 = true ∧
    noReplyEffs (vring_set_enable r b a ev).2.2 = true := by
  unfold vring_set_enable
  split
  · exact ⟨rfl, rfl⟩
  · split
    · split
      · exact ⟨rfl, rfl⟩
      · split
        · exact ⟨rfl, rfl⟩
        · exact ⟨rfl, rfl⟩
    · exact ⟨rfl, rfl⟩

/-- `unmap_guest_region` performs no sends. -/
theorem unmap_guest_region_no_send (r : GuestMemoryRegion) :
    noAckEffs (unmap_guest_region r).2 = true ∧
    noReplyEffs (unmap_guest_region r).2 = true := by
  unfold unmap_guest_region
  split
  · exact ⟨rfl, rfl⟩
  · exact ⟨rfl, rfl⟩

/-- `unmap_all` performs no sends. -/
theorem unmap_all_no_send (m : List GuestMemoryRegion) :
    noAckEffs (vhd_guest_memory_unmap_all m).2 = true ∧
    noReplyEffs (vhd_guest_memory_unmap_all m).2 = true := by
  induction m with
  | nil => exact ⟨rfl, rfl⟩
  | cons r rest ih =>
      rcases hu : unmap_guest_region r with ⟨r', e⟩
      have h1 := unmap_guest_region_no_send r
      rw [hu] at h1
      rcases ha : vhd_guest_memory_unmap_all rest with ⟨rest', es⟩
      rw [ha] at ih
      simp only [vhd_guest_memory_unmap_all, hu, ha]
      constructor
      · simp only [noAckEffs, List.all_append]
        simp only [noAckEffs] at h1 ih
        rw [h1.1, ih.1]
        rfl
      · simp only [noReplyEffs, List.all_append]
        simp only [noReplyEffs] at h1 ih
        rw [h1.2, ih.2]
        rfl

/-- `map_guest_region` performs no sends. -/
theorem map_guest_region_no_send (memmap : List GuestMemoryRegion)
    (index : Nat) (ga ua size offset : Nat) (fd : Int) (mr : Option Nat)
    (me : Int) :
    noAckEffs (map_guest_region memmap index ga ua size offset fd mr me).2.2
      = true ∧
    noReplyEffs (map_guest_region memmap index ga ua size offset fd mr me).2.2
      = true := by
  unfold map_guest_region
  (repeat' split) <;> dsimp only <;> (repeat' split) <;> exact ⟨rfl, rfl⟩

/-- A run of fd closes performs no sends. -/
theorem closes_no_send (f : Nat → Int) (n : Nat) :
    noAckEffs ((List.range n).map fun k => Eff.closeFd (f k)) = true ∧
    noReplyEffs ((List.range n).map fun k => Eff.closeFd (f k)) = true := by
  constructor <;>
    simp [noAckEffs, noReplyEffs, List.all_eq_true, isAckEff, isReplyEff]

/-- The `SET_MEM_TABLE` loop performs no sends. -/
theorem set_mem_table_loop_no_send (mmapf : Nat → Option Nat) (me : Int)
    (desc : VhostUserMemDesc) (fds : List Int) :
    ∀ (n i : Nat) (memmap : List GuestMemoryRegion),
      noAckEffs (set_mem_table_loop mmapf me desc fds memmap i n).2.2 = true ∧
      noReplyEffs (set_mem_table_loop mmapf me desc fds memmap i n).2.2
        = true := by
  intro n
  induction n with
  | zero => intro i memmap; exact ⟨rfl, rfl⟩
  | succ n ih =>
      intro i memmap
      rcases hmg : map_guest_region memmap i
          (desc.regions.getD i default).guest_addr
          (desc.regions.getD i default).user_addr
          (desc.regions.getD i default).size
          (desc.regions.getD i default).mmap_offset
          (fds.getD i 0) (mmapf i) me with ⟨err, rest⟩
      rcases rest with ⟨memmap', effs⟩
      have hmge := map_guest_region_no_send memmap i
        (desc.regions.getD i default).guest_addr
        (desc.regions.getD i default).user_addr
        (desc.regions.getD i default).size
        (desc.regions.getD i default).mmap_offset
        (fds.getD i 0) (mmapf i) me
      rw [hmg] at hmge
      simp only [set_mem_table_loop, hmg]
      by_cases herr : err = 0
      · simp only [herr, ne_eq, not_true_eq_false, if_false, ite_false]
        rcases hrec : set_mem_table_loop mmapf me desc fds memmap' (i + 1) n
          with ⟨r2, rest2⟩
        rcases rest2 with ⟨m2, e2⟩
        have hrecp := ih (i + 1) memmap'
        rw [hrec] at hrecp
        constructor
        · simp only [noAckEffs, List.all_append]
          simp only [noAckEffs] at hmge hrecp
          rw [hmge.1, hrecp.1]
          rfl
        · simp only [noReplyEffs, List.all_append]
          simp only [noReplyEffs] at hmge hrecp
          rw [hmge.2, hrecp.2]
          rfl
      · simp only [herr, ne_eq, not_false_eq_true, if_true, ite_true]
        rcases hua : vhd_guest_memory_unmap_all memmap' with ⟨m2, e2⟩
        have huap := unmap_all_no_send memmap'
        rw [hua] at huap
        have hcl := closes_no_send (fun k => fds.getD (i + k) 0) (n + 1)
        constructor
        · simp only [noAckEffs, List.all_append]
          simp only [noAckEffs] at hmge huap hcl
          rw [hmge.1, huap.1, hcl.1]
          rfl
        · simp only [noReplyEffs, List.all_append]
          simp only [noReplyEffs] at hmge huap hcl
          rw [hmge.2, huap.2, hcl.2]
          rfl

/-- `vhd_vdev_inflight_cleanup` performs no sends. -/
theorem inflight_cleanup_no_send (v : VhdVdev) :
    noAckEffs (vhd_vdev_inflight_cleanup v).2 = true ∧
    noReplyEffs (vhd_vdev_inflight_cleanup v).2 = true := by
  unfold vhd_vdev_inflight_cleanup
  split
  · exact ⟨rfl, rfl⟩
  · exact ⟨rfl, rfl⟩

/-- `vhost_set_vring_fd_common` sends nothing and leaves the message alone. -/
theorem fd_common_frame (env : Env) (v : VhdVdev) (msg : VhostUserMsg)
    (fd : Int) (t : VringDescType) :
    (vhost_set_vring_fd_common env v msg fd t).msg = msg ∧
    noAckEffs (vhost_set_vring_fd_common env v msg fd t).effs = true ∧
    noReplyEffs (vhost_set_vring_fd_common env v msg fd t).effs = true := by
  rcases hve : vring_set_enable
      ({ v.vrings.getD (msg.u64 &&& VHOST_VRING_IDX_MASK) default with
         kickfd := fd }) true env.attach_res env.event_res with ⟨res, rest⟩
  rcases rest with ⟨r2, e⟩
  have hvs := vring_set_enable_no_send
      ({ v.vrings.getD (msg.u64 &&& VHOST_VRING_IDX_MASK) default with
         kickfd := fd }) true env.attach_res env.event_res
  rw [hve] at hvs
  unfold vhost_set_vring_fd_common
  dsimp only
  simp only [hve]
  (repeat' split) <;> first
    | exact ⟨rfl, rfl, rfl⟩
    | exact ⟨rfl, hvs.1, hvs.2⟩

/-- `vhost_set_vring_enable` sends nothing and leaves the message alone. -/
theorem set_vring_enable_frame (env : Env) (v : VhdVdev) (msg : VhostUserMsg) :
    (vhost_set_vring_enable env v msg).msg = msg ∧
    noAckEffs (vhost_set_vring_enable env v msg).effs = true ∧
    noReplyEffs (vhost_set_vring_enable env v msg).effs = true := by
  rcases hve : vring_set_enable
      (v.vrings.getD msg.vring_state_index default)
      (msg.vring_state_num = 1) env.attach_res env.event_res with ⟨res, rest⟩
  rcases rest with ⟨r2, e⟩
  have hvs := vring_set_enable_no_send
      (v.vrings.getD msg.vring_state_index default)
      (msg.vring_state_num = 1) env.attach_res env.event_res
  rw [hve] at hvs
  unfold vhost_set_vring_enable
  dsimp only
  simp only [hve]
  (repeat' split) <;> first
    | exact ⟨rfl, rfl, rfl⟩
    | exact ⟨rfl, hvs.1, hvs.2⟩

/-- `vhost_set_inflight_fd` sends nothing and leaves the message alone. -/
theorem set_inflight_frame (env : Env) (v : VhdVdev) (msg : VhostUserMsg)
    (fds : List Int) :
    (vhost_set_inflight_fd env v msg fds).msg = msg ∧
    noAckEffs (vhost_set_inflight_fd env v msg fds).effs = true ∧
    noReplyEffs (vhost_set_inflight_fd env v msg fds).effs = true := by
  rcases hcl : vhd_vdev_inflight_cleanup v with ⟨v1, e1⟩
  have hclp := inflight_cleanup_no_send v
  rw [hcl] at hclp
  unfold vhost_set_inflight_fd
  dsimp only
  simp only [hcl]
  (repeat' split) <;>
    refine ⟨rfl, ?_, ?_⟩ <;>
      simp only [noAckEffs, noReplyEffs, List.all_append, Bool.and_eq_true] <;>
      first
        | exact ⟨by simpa [noAckEffs] using hclp.1, rfl⟩
        | exact ⟨by simpa [noReplyEffs] using hclp.2, rfl⟩
        | simpa [noAckEffs] using hclp.1
        | simpa [noReplyEffs] using hclp.2

/-- `vhost_get_vring_base` never sends an ack-site reply. -/
theorem get_vring_base_no_ack (env : Env) (v : VhdVdev) (msg : VhostUserMsg) :
    (vhost_get_vring_base env v msg).msg = msg ∧
    noAckEffs (vhost_get_vring_base env v msg).effs = true := by
  rcases hve : vring_set_enable
      (v.vrings.getD msg.vring_state_index default) false
      env.attach_res env.event_res with ⟨res, rest⟩
  rcases rest with ⟨r2, e⟩
  have hvs := vring_set_enable_no_send
      (v.vrings.getD msg.vring_state_index default) false
      env.attach_res env.event_res
  rw [hve] at hvs
  unfold vhost_get_vring_base
  dsimp only
  simp only [hve]
  (repeat' split) <;>
    refine ⟨rfl, ?_⟩ <;>
      first
        | rfl
        | exact hvs.1
        | (simp only [noAckEffs, List.all_append, Bool.and_eq_true]
           exact ⟨by simpa [noAckEffs] using hvs.1, rfl⟩)

/-- `vhost_get_inflight_fd` never sends an ack-site reply. -/
theorem get_inflight_no_ack (env : Env) (v : VhdVdev) (msg : VhostUserMsg) :
    noAckEffs (vhost_get_inflight_fd env v msg).effs = true := by
  rcases hcl : vhd_vdev_inflight_cleanup v with ⟨v1, e1⟩
  have hclp := inflight_cleanup_no_send v
  rw [hcl] at hclp
  unfold vhost_get_inflight_fd
  dsimp only
  simp only [hcl]
  (repeat' split) <;>
    first
      | simpa [noAckEffs] using hclp.1
      | (simp only [noAckEffs, List.all_append, Bool.and_eq_true]
         exact ⟨by simpa [noAckEffs] using hclp.1, rfl⟩)

/-- `vhost_set_mem_table` performs no sends. -/
theorem set_mem_table_no_send (mmapf : Nat → Option Nat) (me : Int)
    (desc : VhostUserMemDesc) (fds : List Int)
    (memmap : List GuestMemoryRegion) :
    noAckEffs (vhost_set_mem_table mmapf me desc fds memmap).2.2 = true ∧
    noReplyEffs (vhost_set_mem_table mmapf me desc fds memmap).2.2 = true := by
  unfold vhost_set_mem_table
  split
  · exact ⟨rfl, rfl⟩
  · exact set_mem_table_loop_no_send mmapf me desc fds desc.nregions 0 memmap

/-- `vhost_set_vring_num` sends nothing and leaves the message alone. -/
theorem set_vring_num_frame (v : VhdVdev) (msg : VhostUserMsg) :
    (vhost_set_vring_num v msg).msg = msg ∧
    noAckEffs (vhost_set_vring_num v msg).effs = true ∧
    noReplyEffs (vhost_set_vring_num v msg).effs = true := by
  unfold vhost_set_vring_num
  (repeat' split) <;> (try dsimp only) <;> (repeat' split) <;>
    exact ⟨rfl, rfl, rfl⟩

/-- `vhost_set_vring_base` sends nothing and leaves the message alone. -/
theorem set_vring_base_frame (v : VhdVdev) (msg : VhostUserMsg) :
    (vhost_set_vring_base v msg).msg = msg ∧
    noAckEffs (vhost_set_vring_base v msg).effs = true ∧
    noReplyEffs (vhost_set_vring_base v msg).effs = true := by
  unfold vhost_set_vring_base
  (repeat' split) <;> (try dsimp only) <;> (repeat' split) <;>
    exact ⟨rfl, rfl, rfl⟩

/-- `vhost_set_vring_addr` sends nothing and leaves the message alone. -/
theorem set_vring_addr_frame (v : VhdVdev) (msg : VhostUserMsg) :
    (vhost_set_vring_addr v msg).msg = msg ∧
    noAckEffs (vhost_set_vring_addr v msg).effs = true ∧
    noReplyEffs (vhost_set_vring_addr v msg).effs = true := by
  unfold vhost_set_vring_addr
  (repeat' split) <;> (try dsimp only) <;> (repeat' split) <;>
    exact ⟨rfl, rfl, rfl⟩

/-- No opcode handler ever emits an ack-site send. -/
theorem switch_no_ack (env : Env) (v : VhdVdev) (msg : VhostUserMsg)
    (fds : List Int) :
    noAckEffs (vhost_handle_request_switch env v msg fds).effs = true := by
  cases hreq : msg.req <;>
    simp only [vhost_handle_request_switch, hreq] <;>
    first
      | rfl
      | ((repeat' split) <;> (try dsimp only) <;> (repeat' split) <;> rfl)
      | exact (fd_common_frame env v msg (fds.getD 0 0) _).2.1
      | exact (set_vring_num_frame v msg).2.1
      | exact (set_vring_base_frame v msg).2.1
      | exact (set_vring_addr_frame v msg).2.1
      | exact (set_vring_enable_frame env v msg).2.1
      | exact (get_vring_base_no_ack env v msg).2
      | exact (get_inflight_no_ack env v msg)
      | exact (set_inflight_frame env v msg fds).2.1
      | (rcases hmt : vhost_set_mem_table env.mmap env.mmap_errno msg.mem_desc
            fds v.guest_memmap with ⟨r, rest⟩
         rcases rest with ⟨m, e⟩
         have h := set_mem_table_no_send env.mmap env.mmap_errno msg.mem_desc
            fds v.guest_memmap
         rw [hmt] at h
         simp only [hmt]
         exact h.1)

/-- A non-getter handler leaves the message alone and emits no explicit
reply. -/
theorem switch_frame (env : Env) (v : VhdVdev) (msg : VhostUserMsg)
    (fds : List Int) (hng : isGetterReq msg.req = false) :
    (vhost_handle_request_switch env v msg fds).msg = msg ∧
    noReplyEffs (vhost_handle_request_switch env v msg fds).effs = true := by
  cases hreq : msg.req <;>
    first
      | (rw [hreq] at hng; exact absurd hng (by decide))
      | (simp only [vhost_handle_request_switch, hreq]
         first
           | exact ⟨by first | rfl | trivial, by first | rfl | trivial⟩
           | ((repeat' split) <;> (try dsimp only) <;> (repeat' split) <;>
               exact ⟨by first | rfl | trivial, by first | rfl | trivial⟩)
           | exact ⟨(fd_common_frame env v msg (fds.getD 0 0) _).1,
               (fd_common_frame env v msg (fds.getD 0 0) _).2.2⟩
           | exact ⟨(set_vring_num_frame v msg).1,
               (set_vring_num_frame v msg).2.2⟩
           | exact ⟨(set_vring_base_frame v msg).1,
               (set_vring_base_frame v msg).2.2⟩
           | exact ⟨(set_vring_addr_frame v msg).1,
               (set_vring_addr_frame v msg).2.2⟩
           | exact ⟨(set_vring_enable_frame env v msg).1,
               (set_vring_enable_frame env v msg).2.2⟩
           | exact ⟨(set_inflight_frame env v msg fds).1,
               (set_inflight_frame env v msg fds).2.2⟩
           | (rcases hmt : vhost_set_mem_table env.mmap env.mmap_errno
                 msg.mem_desc fds v.guest_memmap with ⟨r, rest⟩
              rcases rest with ⟨m, e⟩
              have h := set_mem_table_no_send env.mmap env.mmap_errno
                msg.mem_desc fds v.guest_memmap
              rw [hmt] at h
              simp only [hmt]
              exact ⟨by first | rfl | trivial, h.2⟩))

/-- The ack site never emits an explicit-reply send. -/
theorem ack_no_reply (env : Env) (v : VhdVdev) (msg : VhostUserMsg)
    (ret : Int) :
    noReplyEffs (vhost_ack_request_if_needed env v msg ret).2 = true := by
  unfold vhost_ack_request_if_needed
  (repeat' split) <;> rfl

/-- Case analysis of `vhost_ack_request_if_needed`: nothing is sent when the
feature is off, the flag is absent, or a successfully handled request is one
of the five listed getters; otherwise the u64 status reply is sent. -/
theorem ack_cases (env : Env) (v : VhdVdev) (msg : VhostUserMsg) (ret : Int) :
    (has_feature v.negotiated_protocol_features VHOST_USER_PROTOCOL_F_REPLY_ACK
        = false →
      vhost_ack_request_if_needed env v msg ret = (0, [])) ∧
    (msg.flags &&& VHOST_USER_MSG_FLAGS_REPLY_ACK = 0 →
      vhost_ack_request_if_needed env v msg ret = (0, [])) ∧
    (ret = 0 ∧ (msg.req = VhostUserReq.GET_FEATURES ∨
                msg.req = VhostUserReq.GET_PROTOCOL_FEATURES ∨
                msg.req = VhostUserReq.GET_CONFIG ∨
                msg.req = VhostUserReq.GET_QUEUE_NUM ∨
                msg.req = VhostUserReq.GET_VRING_BASE) →
      vhost_ack_request_if_needed env v msg ret = (0, [])) ∧
    (has_feature v.negotiated_protocol_features VHOST_USER_PROTOCOL_F_REPLY_ACK
        = true →
     msg.flags &&& VHOST_USER_MSG_FLAGS_REPLY_ACK ≠ 0 →
     ¬(ret = 0 ∧ (msg.req = VhostUserReq.GET_FEATURES ∨
                  msg.req = VhostUserReq.GET_PROTOCOL_FEATURES ∨
                  msg.req = VhostUserReq.GET_CONFIG ∨
                  msg.req = VhostUserReq.GET_QUEUE_NUM ∨
                  msg.req = VhostUserReq.GET_VRING_BASE)) →
      vhost_ack_request_if_needed env v msg ret
        = (env.ack_res, [Eff.sendAck ret])) := by
  refine ⟨?_, ?_, ?_, ?_⟩
  · intro h
    simp [vhost_ack_request_if_needed, h]
  · intro h
    simp [vhost_ack_request_if_needed, h]
  · intro h
    by_cases h1 : has_feature v.negotiated_protocol_features
        VHOST_USER_PROTOCOL_F_REPLY_ACK
    · by_cases h2 : msg.flags &&& VHOST_USER_MSG_FLAGS_REPLY_ACK = 0
      · simp [vhost_ack_request_if_needed, h2]
      · simp [vhost_ack_request_if_needed, h1, h2, h]
    · simp [vhost_ack_request_if_needed, h1]
  · intro h1 h2 h3
    simp [vhost_ack_request_if_needed, h1, h2, h3]

/-- `vhd_vdev_inflight_cleanup` does not touch the negotiated protocol
features. -/
theorem cleanup_preserves_features (v : VhdVdev) :
    (vhd_vdev_inflight_cleanup v).1.negotiated_protocol_features
      = v.negotiated_protocol_features := by
  unfold vhd_vdev_inflight_cleanup
  split <;> rfl

/-- `vhost_get_vring_base` that returned success has emitted its reply. -/
theorem get_vring_base_reply (env : Env) (v : VhdVdev) (msg : VhostUserMsg)
    (h0 : (vhost_get_vring_base env v msg).ret = 0) :
    ∃ r, Eff.sendMsg r ∈ (vhost_get_vring_base env v msg).effs := by
  rcases hve : vring_set_enable
      (v.vrings.getD msg.vring_state_index default) false
      env.attach_res env.event_res with ⟨res, rest⟩
  rcases rest with ⟨r2, e⟩
  unfold vhost_get_vring_base at h0 ⊢
  dsimp only at h0 ⊢
  simp only [hve] at h0 ⊢
  by_cases hidx : v.num_queues ≤ msg.vring_state_index
  · rw [if_pos hidx] at h0
    simp [EINVAL] at h0
  · rw [if_neg hidx] at h0 ⊢
    by_cases hf : has_feature v.negotiated_features VHOST_USER_F_PROTOCOL_FEATURES
    · rw [if_neg (by simp [hf])] at h0 ⊢
      refine ⟨Reply.u64 msg.req (Int.ofNat
        (v.vrings.getD msg.vring_state_index default).vq_last_avail), ?_⟩
      simp [vhost_send_reply]
    · rw [if_pos (by simp [hf])] at h0 ⊢
      by_cases hres : res ≠ 0
      · rw [if_pos hres] at h0
        exact absurd h0 hres
      · rw [if_neg hres] at h0 ⊢
        refine ⟨Reply.u64 msg.req (Int.ofNat
          (v.vrings.getD msg.vring_state_index default).vq_last_avail), ?_⟩
        simp [vhost_send_reply]

/-- `vhost_get_inflight_fd` that returned success has emitted its reply
(granted failing syscalls report nonzero errnos). -/
theorem get_inflight_reply (env : Env) (v : VhdVdev) (msg : VhostUserMsg)
    (he1 : env.memfd_errno ≠ 0) (he2 : env.inflight_mmap_errno ≠ 0)
    (h0 : (vhost_get_inflight_fd env v msg).ret = 0) :
    ∃ r, Eff.sendMsg r ∈ (vhost_get_inflight_fd env v msg).effs := by
  rcases hcl : vhd_vdev_inflight_cleanup v with ⟨v1, e1⟩
  unfold vhost_get_inflight_fd at h0 ⊢
  dsimp only at h0 ⊢
  simp only [hcl] at h0 ⊢
  cases hmf : env.memfd with
  | none =>
      try simp only [hmf] at h0
      exact absurd h0 he1
  | some fd =>
      try simp only [hmf] at h0 ⊢
      by_cases hft : env.ftruncate_res ≠ 0
      · rw [if_pos hft] at h0
        exact absurd h0 hft
      · rw [if_neg hft] at h0 ⊢
        cases hmm : env.inflight_mmap with
        | none =>
            try simp only [hmm] at h0
            exact absurd h0 he2
        | some a =>
            try simp only [hmm] at h0 ⊢
            by_cases hrr : env.reply_res ≠ 0
            · rw [if_pos hrr] at h0
              exact absurd h0 hrr
            · rw [if_neg hrr] at h0 ⊢
              refine ⟨Reply.inflight
                (vring_inflight_buf_size msg.inflight_queue_size
                  * msg.inflight_num_queues) 0 fd, ?_⟩
              simp

/-- Once `vhost_get_inflight_fd` reaches its reply point, the message flags
have been overwritten with the REPLY flag. -/
theorem get_inflight_flags (env : Env) (v : VhdVdev) (msg : VhostUserMsg)
    (fd : Int) (a : Nat) (hmf : env.memfd = some fd)
    (hft : env.ftruncate_res = 0) (hmm : env.inflight_mmap = some a) :
    (vhost_get_inflight_fd env v msg).msg.flags
      = VHOST_USER_MSG_FLAGS_REPLY := by
  rcases hcl : vhd_vdev_inflight_cleanup v with ⟨v1, e1⟩
  unfold vhost_get_inflight_fd
  dsimp only
  simp only [hcl, hmf, hmm]
  rw [if_neg (by simp [hft])]
  split <;> rfl

/-- A `vhost_get_inflight_fd` whose `memfd_create` fails returns that errno
and leaves the message untouched. -/
theorem get_inflight_early (env : Env) (v : VhdVdev) (msg : VhostUserMsg)
    (hmf : env.memfd = none) :
    (vhost_get_inflight_fd env v msg).msg = msg ∧
    (vhost_get_inflight_fd env v msg).ret = env.memfd_errno ∧
    (vhost_get_inflight_fd env v msg).vdev.negotiated_protocol_features
      = v.negotiated_protocol_features := by
  rcases hcl : vhd_vdev_inflight_cleanup v with ⟨v1, e1⟩
  have hpf : v1.negotiated_protocol_features = v.negotiated_protocol_features := by
    rw [show v1 = (vhd_vdev_inflight_cleanup v).1 from by rw [hcl]]
    exact cleanup_preserves_features v
  unfold vhost_get_inflight_fd
  dsimp only
  simp only [hcl, hmf]
  exact ⟨by first | rfl | trivial, by first | rfl | trivial, hpf⟩

/-- C2 (amended): in `vhost_handle_request`, (1) only the six getter opcodes
ever emit an explicit reply, and (2) a getter dispatch that returns success
has emitted one.  If `REPLY_ACK` was negotiated and the message carries the
`REPLY_ACK` flag, then (3) every non-getter request is acked with a u64 reply
carrying the handler's status, and an error sending that ack overrides the
handler's result; (4) `GET_FEATURES`, `GET_PROTOCOL_FEATURES`,
`GET_QUEUE_NUM` and `GET_VRING_BASE` suppress the ack exactly when the
handler succeeded, and ack their status on failure (with the same override);
but (5) `GET_CONFIG` never acks — it overwrites the message flags with the
REPLY flag before the ack check, destroying the `REPLY_ACK` bit — and (6)
`GET_INFLIGHT_FD` does the same once it reaches its reply point (so even a
failed reply send is not acked), while its early failures are still acked.
(`he1`/`he2` say failing syscalls report nonzero errnos.) -/
theorem reply_and_ack_policy (env : Env) (v : VhdVdev) (msg : VhostUserMsg)
    (fds : List Int) (he1 : env.memfd_errno ≠ 0)
    (he2 : env.inflight_mmap_errno ≠ 0) :
    (isGetterReq msg.req = false →
      ∀ e ∈ (vhost_handle_request env v msg fds).effs, isReplyEff e = false) ∧
    (isGetterReq msg.req = true →
     (vhost_handle_request env v msg fds).ret = 0 →
      ∃ r, Eff.sendMsg r ∈ (vhost_handle_request env v msg fds).effs) ∧
    (isGetterReq msg.req = false →
     has_feature (vhost_handle_request_switch env v msg
         fds).vdev.negotiated_protocol_features
       VHOST_USER_PROTOCOL_F_REPLY_ACK = true →
     msg.flags &&& VHOST_USER_MSG_FLAGS_REPLY_ACK ≠ 0 →
      Eff.sendAck (vhost_handle_request_switch env v msg fds).ret
          ∈ (vhost_handle_request env v msg fds).effs ∧
      (env.ack_res = 0 → (vhost_handle_request env v msg fds).ret
          = (vhost_handle_request_switch env v msg fds).ret) ∧
      (env.ack_res ≠ 0 →
        (vhost_handle_request env v msg fds).ret = env.ack_res)) ∧
    ((msg.req = VhostUserReq.GET_FEATURES ∨
      msg.req = VhostUserReq.GET_PROTOCOL_FEATURES ∨
      msg.req = VhostUserReq.GET_QUEUE_NUM ∨
      msg.req = VhostUserReq.GET_VRING_BASE) →
      (((vhost_handle_request_switch env v msg fds).ret = 0 →
        ∀ e ∈ (vhost_handle_request env v msg fds).effs,
          isAckEff e = false) ∧
       ((vhost_handle_request_switch env v msg fds).ret ≠ 0 →
        has_feature (vhost_handle_request_switch env v msg
            fds).vdev.negotiated_protocol_features
          VHOST_USER_PROTOCOL_F_REPLY_ACK = true →
        msg.flags &&& VHOST_USER_MSG_FLAGS_REPLY_ACK ≠ 0 →
          Eff.sendAck (vhost_handle_request_switch env v msg fds).ret
              ∈ (vhost_handle_request env v msg fds).effs ∧
          (env.ack_res ≠ 0 →
            (vhost_handle_request env v msg fds).ret = env.ack_res)))) ∧
    (msg.req = VhostUserReq.GET_CONFIG →
      ∀ e ∈ (vhost_handle_request env v msg fds).effs, isAckEff e = false) ∧
    (msg.req = VhostUserReq.GET_INFLIGHT_FD →
      ((∀ fd a, env.memfd = some fd → env.ftruncate_res = 0 →
          env.inflight_mmap = some a →
          ∀ e ∈ (vhost_handle_request env v msg fds).effs,
            isAckEff e = false) ∧
       (env.memfd = none →
        has_feature v.negotiated_protocol_features
          VHOST_USER_PROTOCOL_F_REPLY_ACK = true →
        msg.flags &&& VHOST_USER_MSG_FLAGS_REPLY_ACK ≠ 0 →
          Eff.sendAck env.memfd_errno
            ∈ (vhost_handle_request env v msg fds).effs))) := by
  rcases hack : vhost_ack_request_if_needed env
      (vhost_handle_request_switch env v msg fds).vdev
      (vhost_handle_request_switch env v msg fds).msg
      (vhost_handle_request_switch env v msg fds).ret with ⟨reply_ret, ea⟩
  have hout : vhost_handle_request env v msg fds
      = ⟨if reply_ret ≠ 0 then reply_ret
           else (vhost_handle_request_switch env v msg fds).ret,
         (vhost_handle_request_switch env v msg fds).vdev,
         (vhost_handle_request_switch env v msg fds).msg,
         (vhost_handle_request_switch env v msg fds).effs ++ ea⟩ := by
    unfold vhost_handle_request
    dsimp only
    rw [hack]
  refine ⟨?_, ?_, ?_, ?_, ?_, ?_⟩
  · -- (1) only getters reply
    intro hng e he
    rw [hout] at he
    dsimp only at he
    rcases List.mem_append.mp he with h | h
    · exact noReplyEffs_mem (switch_frame env v msg fds hng).2 e h
    · have hnr := ack_no_reply env
        (vhost_handle_request_switch env v msg fds).vdev
        (vhost_handle_request_switch env v msg fds).msg
        (vhost_handle_request_switch env v msg fds).ret
      rw [hack] at hnr
      exact noReplyEffs_mem hnr e h
  · -- (2) a successful getter replied
    intro hg h0
    rw [hout] at h0 ⊢
    dsimp only at h0 ⊢
    by_cases hrr : reply_ret ≠ 0
    · rw [if_pos hrr] at h0
      exact absurd h0 hrr
    · rw [if_neg hrr] at h0
      have hmem : ∃ r, Eff.sendMsg r
          ∈ (vhost_handle_request_switch env v msg fds).effs := by
        cases hreq : msg.req <;> rw [hreq] at hg <;>
          first
            | exact absurd hg (by decide)
            | (simp only [vhost_handle_request_switch, hreq] at h0 ⊢
               first
                 | (refine ⟨Reply.u64 msg.req (Int.ofNat
                      (g_default_features ||| env.dev_features)), ?_⟩
                    simp [vhost_get_features, vhost_send_reply]
                    done)
                 | (refine ⟨Reply.u64 msg.req (Int.ofNat
                      v.supported_protocol_features), ?_⟩
                    simp [vhost_get_protocol_features, vhost_send_reply]
                    done)
                 | (refine ⟨Reply.u64 msg.req (Int.ofNat v.max_queues), ?_⟩
                    simp [vhost_get_queue_num, vhost_send_reply]
                    done)
                 | (refine ⟨Reply.config env.dev_config_size, ?_⟩
                    simp [vhost_get_config]
                    done)
                 | exact get_vring_base_reply env v msg h0
                 | exact get_inflight_reply env v msg he1 he2 h0)
      obtain ⟨r, hr⟩ := hmem
      exact ⟨r, List.mem_append.mpr (Or.inl hr)⟩
  · -- (3) setter ack with status, send error overrides
    intro hng hfeat hflag
    have hframe := switch_frame env v msg fds hng
    have hfive : ¬((vhost_handle_request_switch env v msg fds).ret = 0 ∧
        ((vhost_handle_request_switch env v msg fds).msg.req
            = VhostUserReq.GET_FEATURES ∨
         (vhost_handle_request_switch env v msg fds).msg.req
            = VhostUserReq.GET_PROTOCOL_FEATURES ∨
         (vhost_handle_request_switch env v msg fds).msg.req
            = VhostUserReq.GET_CONFIG ∨
         (vhost_handle_request_switch env v msg fds).msg.req
            = VhostUserReq.GET_QUEUE_NUM ∨
         (vhost_handle_request_switch env v msg fds).msg.req
            = VhostUserReq.GET_VRING_BASE)) := by
      rw [hframe.1]
      rintro ⟨_, h5 | h5 | h5 | h5 | h5⟩ <;>
        (rw [h5] at hng; exact absurd hng (by decide))
    have hck := (ack_cases env
      (vhost_handle_request_switch env v msg fds).vdev
      (vhost_handle_request_switch env v msg fds).msg
      (vhost_handle_request_switch env v msg fds).ret).2.2.2
      hfeat (by rw [hframe.1]; exact hflag) hfive
    rw [hack] at hck
    have hrr : reply_ret = env.ack_res := (Prod.mk.injEq _ _ _ _).mp hck |>.1
    have hea : ea = [Eff.sendAck
        (vhost_handle_request_switch env v msg fds).ret] :=
      (Prod.mk.injEq _ _ _ _).mp hck |>.2
    refine ⟨?_, ?_, ?_⟩
    · rw [hout]
      dsimp only
      rw [hea]
      exact List.mem_append.mpr (Or.inr (List.mem_singleton.mpr rfl))
    · intro ha0
      rw [hout]
      dsimp only
      rw [hrr, if_neg (by simp [ha0])]
    · intro han
      rw [hout]
      dsimp only
      rw [hrr, if_pos han]
  · -- (4) the four u64 getters
    intro hfour
    have hmsg : (vhost_handle_request_switch env v msg fds).msg = msg := by
      rcases hfour with h | h | h | h <;>
        simp only [vhost_handle_request_switch, h] <;>
        first
          | rfl
          | exact (get_vring_base_no_ack env v msg).1
    constructor
    · intro h0 e he
      have hck := (ack_cases env
        (vhost_handle_request_switch env v msg fds).vdev
        (vhost_handle_request_switch env v msg fds).msg
        (vhost_handle_request_switch env v msg fds).ret).2.2.1
        ⟨h0, by
          rw [hmsg]
          rcases hfour with h | h | h | h <;> simp [h]⟩
      rw [hack] at hck
      have hea : ea = [] := (Prod.mk.injEq _ _ _ _).mp hck |>.2
      rw [hout] at he
      dsimp only at he
      rw [hea, List.append_nil] at he
      have hna := switch_no_ack env v msg fds
      exact noAckEffs_mem hna e he
    · intro hret hfeat hflag
      have hfive : ¬((vhost_handle_request_switch env v msg fds).ret = 0 ∧
          ((vhost_handle_request_switch env v msg fds).msg.req
              = VhostUserReq.GET_FEATURES ∨
           (vhost_handle_request_switch env v msg fds).msg.req
              = VhostUserReq.GET_PROTOCOL_FEATURES ∨
           (vhost_handle_request_switch env v msg fds).msg.req
              = VhostUserReq.GET_CONFIG ∨
           (vhost_handle_request_switch env v msg fds).msg.req
              = VhostUserReq.GET_QUEUE_NUM ∨
           (vhost_handle_request_switch env v msg fds).msg.req
              = VhostUserReq.GET_VRING_BASE)) := by
        rintro ⟨h0, _⟩
        exact hret h0
      have hck := (ack_cases env
        (vhost_handle_request_switch env v msg fds).vdev
        (vhost_handle_request_switch env v msg fds).msg
        (vhost_handle_request_switch env v msg fds).ret).2.2.2
        hfeat (by rw [hmsg]; exact hflag) hfive
      rw [hack] at hck
      have hrr : reply_ret = env.ack_res := (Prod.mk.injEq _ _ _ _).mp hck |>.1
      have hea : ea = [Eff.sendAck
          (vhost_handle_request_switch env v msg fds).ret] :=
        (Prod.mk.injEq _ _ _ _).mp hck |>.2
      constructor
      · rw [hout]
        dsimp only
        rw [hea]
        exact List.mem_append.mpr (Or.inr (List.mem_singleton.mpr rfl))
      · intro han
        rw [hout]
        dsimp only
        rw [hrr, if_pos han]
  · -- (5) GET_CONFIG never acks
    intro hreq e he
    have hflags5 : (vhost_handle_request_switch env v msg fds).msg.flags
        = VHOST_USER_MSG_FLAGS_REPLY := by
      simp only [vhost_handle_request_switch, hreq]
      rfl
    have hck := (ack_cases env
      (vhost_handle_request_switch env v msg fds).vdev
      (vhost_handle_request_switch env v msg fds).msg
      (vhost_handle_request_switch env v msg fds).ret).2.1
      (by rw [hflags5]; decide)
    rw [hack] at hck
    have hea : ea = [] := (Prod.mk.injEq _ _ _ _).mp hck |>.2
    rw [hout] at he
    dsimp only at he
    rw [hea, List.append_nil] at he
    exact noAckEffs_mem (switch_no_ack env v msg fds) e he
  · -- (6) GET_INFLIGHT_FD
    intro hreq
    constructor
    · intro fd a hmf hft hmm e he
      have hflags5 : (vhost_handle_request_switch env v msg fds).msg.flags
          = VHOST_USER_MSG_FLAGS_REPLY := by
        simp only [vhost_handle_request_switch, hreq]
        exact get_inflight_flags env v msg fd a hmf hft hmm
      have hck := (ack_cases env
        (vhost_handle_request_switch env v msg fds).vdev
        (vhost_handle_request_switch env v msg fds).msg
        (vhost_handle_request_switch env v msg fds).ret).2.1
        (by rw [hflags5]; decide)
      rw [hack] at hck
      have hea : ea = [] := (Prod.mk.injEq _ _ _ _).mp hck |>.2
      rw [hout] at he
      dsimp only at he
      rw [hea, List.append_nil] at he
      exact noAckEffs_mem (switch_no_ack env v msg fds) e he
    · intro hmf hfeat hflag
      have hearly := get_inflight_early env v msg hmf
      have hsw : vhost_handle_request_switch env v msg fds
          = vhost_get_inflight_fd env v msg := by
        simp only [vhost_handle_request_switch, hreq]
      have hfive : ¬((vhost_handle_request_switch env v msg fds).ret = 0 ∧
          ((vhost_handle_request_switch env v msg fds).msg.req
              = VhostUserReq.GET_FEATURES ∨
           (vhost_handle_request_switch env v msg fds).msg.req
              = VhostUserReq.GET_PROTOCOL_FEATURES ∨
           (vhost_handle_request_switch env v msg fds).msg.req
              = VhostUserReq.GET_CONFIG ∨
           (vhost_handle_request_switch env v msg fds).msg.req
              = VhostUserReq.GET_QUEUE_NUM ∨
           (vhost_handle_request_switch env v msg fds).msg.req
              = VhostUserReq.GET_VRING_BASE)) := by
        rw [hsw, hearly.1]
        rintro ⟨_, h5 | h5 | h5 | h5 | h5⟩ <;>
          (rw [h5] at hreq; exact absurd hreq (by decide))
      have hck := (ack_cases env
        (vhost_handle_request_switch env v msg fds).vdev
        (vhost_handle_request_switch env v msg fds).msg
        (vhost_handle_request_switch env v msg fds).ret).2.2.2
        (by rw [hsw, hearly.2.2]; exact hfeat)
        (by rw [hsw, hearly.1]; exact hflag) hfive
      rw [hack] at hck
      have hea : ea = [Eff.sendAck
          (vhost_handle_request_switch env v msg fds).ret] :=
        (Prod.mk.injEq _ _ _ _).mp hck |>.2
      rw [hout]
      dsimp only
      rw [hea, hsw, hearly.2.1]
      exact List.mem_append.mpr (Or.inr (List.mem_singleton.mpr rfl))

/-- A vdev that negotiated the `REPLY_ACK` protocol feature (bit 3). -/
def c2Vdev : VhdVdev := { baseVdev with negotiated_protocol_features := 8 }

/-- A `GET_CONFIG` request carrying the `REPLY_ACK` flag (version 1 | bit 3). -/
def c2Msg : VhostUserMsg :=
  { baseMsg with req := VhostUserReq.GET_CONFIG, flags := 9 }

/-- An environment in which the explicit reply send fails with `-EIO`. -/
def c2Env : Env := { okEnv with reply_res := -5 }

/-- C2 counterexample: `REPLY_ACK` is negotiated, the `GET_CONFIG` message
carries the `REPLY_ACK` flag, and the handler fails (its explicit reply send
returns `-5`, so no explicit reply was emitted successfully) — the claim says
an ack carrying the status must then be sent, yet the dispatcher sends no
ack at all: the handler overwrote the message flags with the REPLY flag,
clearing the `REPLY_ACK` bit before `vhost_ack_request_if_needed` looks at
it. -/
theorem get_config_failed_send_no_ack_counterexample :
    has_feature c2Vdev.negotiated_protocol_features
      VHOST_USER_PROTOCOL_F_REPLY_ACK = true ∧
    c2Msg.flags &&& VHOST_USER_MSG_FLAGS_REPLY_ACK ≠ 0 ∧
    (vhost_handle_request c2Env c2Vdev c2Msg []).ret = -5 ∧
    (∀ e ∈ (vhost_handle_request c2Env c2Vdev c2Msg []).effs,
      isAckEff e = false) := by
  decide

/-- A `SET_OWNER` request carrying the `REPLY_ACK` flag. -/
def c2wMsg : VhostUserMsg :=
  { baseMsg with req := VhostUserReq.SET_OWNER, flags := 9 }

/-- Witness for C2 (amended): a flagged setter on a `REPLY_ACK` device is
acked with the handler's status. -/
theorem reply_and_ack_policy_witness :
    Eff.sendAck (vhost_handle_request_switch okEnv c2Vdev c2wMsg []).ret
      ∈ (vhost_handle_request okEnv c2Vdev c2wMsg []).effs :=
  ((reply_and_ack_policy okEnv c2Vdev c2wMsg [] (by decide) (by decide)).2.2.1
    (by decide) (by decide) (by decide)).1
